import Mathlib

/-!
# Verification of the fervid template AST transform

A shallow embedding of `crates/fervid_transform/src/template/ast_transform.rs`
(the semantic-analysis and optimization pass of the fervid SFC compiler),
together with proofs about its behaviour.

Data types (`Node`, `ElementNode`, `VueDirectives`, `PatchFlags`, ...) mirror
the `fervid_core` declarations as they are used by `ast_transform.rs`.
External collaborators (the expression transformer, the `v-model` transformer,
`collect_variables`, the HTML/built-in tag vocabularies and the default-slot
test) are modelled as an abstract `ExternalOracle`, following spec §6: they are
consumed capabilities, not part of this pass.

Machine-integer detail: the Rust `discard_mask` of `optimize_children` is a
`u128`; shifts `1u128 << k` use the release-mode semantics of Rust, where the
shift amount is taken modulo 128.  This is modelled by `% 128` on every shift
amount.
-/

namespace Fervid

/-- Javascript expressions (`swc` AST).  The pass treats expressions opaquely:
they are only ever rewritten by the external expression transformer, or built
as bare identifier references (`maybe_resolve_component`).  We therefore model
them by an identifier constructor plus an uninterpreted payload constructor. -/
inductive Expr where
  | ident (sym : String)
  | raw (payload : String)
deriving DecidableEq

/-- `fervid_core::StrOrExpr`: a static string or a dynamic expression. -/
inductive StrOrExpr where
  | str (s : String)
  | expr (e : Expr)
deriving DecidableEq

/-- `fervid_core::PatchFlags` bitmask, one field per bit used by this pass. -/
structure PatchFlags where
  text : Bool := false
  cls : Bool := false
  style : Bool := false
  props : Bool := false
  fullProps : Bool := false
  stableFragment : Bool := false
  keyedFragment : Bool := false
  unkeyedFragment : Bool := false
deriving DecidableEq

instance : Inhabited PatchFlags := ⟨{}⟩

/-- `fervid_core::PatchHints`: flag bitmask plus the dynamic prop-name list. -/
structure PatchHints where
  flags : PatchFlags := {}
  props : List String := []
deriving DecidableEq

instance : Inhabited PatchHints := ⟨{}⟩

/-- `fervid_core::BindingTypes` (the classifications used by this pass). -/
inductive BindingTypes where
  | component
  | imported
  | setupMaybeRef
  | setupConst
deriving DecidableEq

/-- `fervid_core::ComponentBinding`. -/
inductive ComponentBinding where
  | resolved (e : Expr)
  | unresolved
deriving DecidableEq

/-- `fervid_core::TemplateScope`: names introduced by a loop/slot plus the
parent scope index. -/
structure TemplateScope where
  vars : List String
  parent : Nat
deriving DecidableEq

/-- `fervid_core::BuiltinType`. -/
inductive BuiltinType where
  | component
  | keepAlive
  | slot
  | suspense
  | teleport
  | transition
  | transitionGroup
deriving DecidableEq

/-- `fervid_core::ElementKind`. -/
inductive ElementKind where
  | element
  | component
  | builtin (b : BuiltinType)
deriving DecidableEq

/-- `fervid_core::VForDirective`. -/
structure VForDirective where
  iterable : Expr
  itervar : Expr
  patch_flags : PatchFlags := {}
deriving DecidableEq

/-- `fervid_core::VSlotDirective`. -/
structure VSlotDirective where
  slot_name : Option StrOrExpr := none
  value : Option Expr := none
deriving DecidableEq

/-- `fervid_core::VModelDirective` (payload only; it is handled by the external
two-way-binding transform). -/
structure VModelDirective where
  value : Expr
  argument : Option StrOrExpr := none
deriving DecidableEq

/-- `fervid_core::VOnDirective`. -/
structure VOnDirective where
  event : Option StrOrExpr := none
  handler : Option Expr := none
deriving DecidableEq

/-- `fervid_core::VBindDirective`.  `argument = none` or a dynamic argument
means a dynamically-named binding (`:[foo]` or `v-bind="obj"`). -/
structure VBindDirective where
  argument : Option StrOrExpr := none
  value : Expr
deriving DecidableEq

/-- `fervid_core::VueDirectives` (the fields read or written by
`ast_transform.rs`). -/
structure VueDirectives where
  v_if : Option Expr := none
  v_else_if : Option Expr := none
  v_else : Option Unit := none
  v_for : Option VForDirective := none
  v_slot : Option VSlotDirective := none
  v_model : List VModelDirective := []
  v_html : Option Expr := none
  v_memo : Option Expr := none
  v_show : Option Expr := none
  v_text : Option Expr := none
deriving DecidableEq

instance : Inhabited VueDirectives := ⟨{}⟩

/-- `fervid_core::AttributeOrBinding`. -/
inductive AttributeOrBinding where
  | regularAttribute (name : String) (value : String)
  | vBind (d : VBindDirective)
  | vOn (d : VOnDirective)
deriving DecidableEq

/-- `fervid_core::StartingTag`. -/
structure StartingTag where
  tag_name : String
  attributes : List AttributeOrBinding
  directives : Option VueDirectives
deriving DecidableEq

/-- `fervid_core::Interpolation`. -/
structure Interpolation where
  value : Expr
  template_scope : Nat
  patch_flag : Bool
deriving DecidableEq

mutual
/-- `fervid_core::Node` (spans are irrelevant to the pass and omitted). -/
inductive Node where
  | element : ElementNode → Node
  | text : String → Node
  | interpolation : Interpolation → Node
  | comment : String → Node
  | conditionalSeq : ConditionalNodeSequence → Node

/-- `fervid_core::ElementNode`: starting tag, children, scope id, resolved
kind, patch hints. -/
inductive ElementNode where
  | mk : StartingTag → List Node → Nat → ElementKind → PatchHints → ElementNode

/-- `fervid_core::ConditionalNodeSequence`. -/
inductive ConditionalNodeSequence where
  | mk : Conditional → List Conditional → Option ElementNode → ConditionalNodeSequence

/-- `fervid_core::Conditional`. -/
inductive Conditional where
  | mk : Expr → ElementNode → Conditional
end

def ElementNode.starting_tag : ElementNode → StartingTag
  | .mk st _ _ _ _ => st

def ElementNode.children : ElementNode → List Node
  | .mk _ c _ _ _ => c

def ElementNode.template_scope : ElementNode → Nat
  | .mk _ _ ts _ _ => ts

def ElementNode.kind : ElementNode → ElementKind
  | .mk _ _ _ k _ => k

def ElementNode.patch_hints : ElementNode → PatchHints
  | .mk _ _ _ _ ph => ph

def ConditionalNodeSequence.if_node : ConditionalNodeSequence → Conditional
  | .mk i _ _ => i

def ConditionalNodeSequence.else_if_nodes : ConditionalNodeSequence → List Conditional
  | .mk _ ei _ => ei

def ConditionalNodeSequence.else_node : ConditionalNodeSequence → Option ElementNode
  | .mk _ _ e => e

def Conditional.condition : Conditional → Expr
  | .mk c _ => c

def Conditional.node : Conditional → ElementNode
  | .mk _ n => n

/-! ## Whitespace trimming (first stage of `optimize_children`)

Rust source, `optimize_children` lines 68-106: a `u128` discard mask is
computed (bit `i % 128` marks child `i` for removal), then `Vec::retain`
filters by the mask. -/

/-- A text node whose trimmed content is empty (the guard
`Node::Text(v, _) if v.trim().is_empty()`): every character of the text is
whitespace. -/
def isWsText : Node → Bool
  | .text s => s.data.all Char.isWhitespace
  | _ => false

/-- Matches the window-edge pattern `Node::Element(_) | Node::Comment(_, _)`. -/
def isElementOrComment : Node → Bool
  | .element _ => true
  | .comment _ => true
  | _ => false

/-- Mask contribution of the `children.first()` match. -/
def leadMask (children : List Node) : Nat :=
  children.head?.elim 0 fun n => if isWsText n then 1 <<< (0 % 128) else 0

/-- Mask contribution of the `children.last()` match
(`discard_mask |= 1 << (children_len - 1)`). -/
def trailMask (children : List Node) : Nat :=
  children.getLast?.elim 0 fun n =>
    if isWsText n then 1 <<< ((children.length - 1) % 128) else 0

/-- Mask contribution of the `children.windows(3)` loop
(`discard_mask |= 1 << (index + 1)`); `i` is the index of the first node of
the current window. -/
def midMask : List Node → Nat → Nat
  | a :: b :: c :: rest, i =>
    (if isElementOrComment a && isWsText b && isElementOrComment c then
      1 <<< ((i + 1) % 128)
    else 0) ||| midMask (b :: c :: rest) (i + 1)
  | _, _ => 0

/-- The full `discard_mask` of `optimize_children`. -/
def discardMask (children : List Node) : Nat :=
  leadMask children ||| trailMask children ||| midMask children 0

/-- `children.retain(..)` with the running index counter: child `i` is kept
iff `discard_mask & (1 << i) == 0` (shift amount again modulo 128). -/
def retainByMask (mask : Nat) : Nat → List Node → List Node
  | _, [] => []
  | i, x :: xs =>
    if mask &&& (1 <<< (i % 128)) == 0 then x :: retainByMask mask (i + 1) xs
    else retainByMask mask (i + 1) xs

/-- The whitespace-trim stage of `optimize_children` (lines 68-106). -/
def trimWhitespace (children : List Node) : List Node :=
  retainByMask (discardMask children) 0 children

/-! ### Spec-side description of the trim stage

`specTrimDiscard` transcribes the claim's predicates: drop a leading or
trailing text node whose trimmed content is empty, and drop a whitespace-only
text node strictly between two Element/Comment neighbours.  `specTrim` is the
filter by those predicates (the spec allows "any correct set/filter
strategy"). -/

/-- Does the claim ask for node `i` of `l` to be removed? -/
def specTrimDiscard (l : List Node) (i : Nat) : Bool :=
  (i == 0 && (l.head?.elim false isWsText)) ||
  (i == l.length - 1 && (l.getLast?.elim false isWsText)) ||
  (1 ≤ i && (l[i-1]?.elim false isElementOrComment) &&
    (l[i]?.elim false isWsText) &&
    (l[i+1]?.elim false isElementOrComment))

/-- Positional filter: keep element `k + j` of the original list iff `p (k+j)`. -/
def filterIdxFrom (p : Nat → Bool) : Nat → List Node → List Node
  | _, [] => []
  | k, x :: xs =>
    if p k then x :: filterIdxFrom p (k + 1) xs else filterIdxFrom p (k + 1) xs

/-- The trim stage as described by the specification: remove exactly the
nodes selected by `specTrimDiscard`, preserving all others in order. -/
def specTrim (l : List Node) : List Node :=
  filterIdxFrom (fun i => !specTrimDiscard l i) 0 l

/-! ### Equivalence of the mask-based trim with the spec description -/

/-- Does the three-node sliding window starting at index `k` of `l` select its
middle node (index `k+1`) for removal? -/
def windowBad (l : List Node) (k : Nat) : Bool :=
  (l[k]?.elim false isElementOrComment) &&
  (l[k+1]?.elim false isWsText) &&
  (l[k+2]?.elim false isElementOrComment)

/-- A minimal plain element (`<div></div>`), used for concrete instances. -/
def divElement : ElementNode := .mk ⟨"div", [], none⟩ [] 0 .element {}

/-- The 129-node sibling list `comment^128 ++ [text " "]` on which the `u128`
discard mask wraps around: the trailing whitespace text sits at index 128, so
its discard bit lands on bit `128 % 128 = 0` and child 0 (a comment) is
wrongly dropped as well. -/
def c1WrapList : List Node := List.replicate 128 (Node.comment "c") ++ [Node.text " "]

/-- Concrete sibling list exercising all three removal predicates plus
retention next to an interpolation. -/
def c1Example : List Node :=
  [Node.text " ", Node.element divElement, Node.text "\t",
   Node.comment "x", Node.text "hi",
   Node.interpolation ⟨Expr.raw "msg", 0, false⟩, Node.text " "]

/-- Sibling list on which the trim stage is not idempotent: the leading
whitespace text hides a second whitespace text behind it. -/
def c4List : List Node := [Node.text " ", Node.text " ", Node.element divElement]

/-- Concrete list for the C4 witness: a whitespace text between two elements. -/
def c4Example : List Node :=
  [Node.element divElement, Node.text " ", Node.element divElement]

/-! ## `optimize_v_if_plus_v_for` (lines 221-266) -/

/-- Replace an element's directives, keeping everything else. -/
def ElementNode.setDirectives (e : ElementNode) (d : Option VueDirectives) : ElementNode :=
  .mk { e.starting_tag with directives := d } e.children e.template_scope e.kind e.patch_hints

/-- `map_or(false, |d| d.v_for.is_some())`. -/
def hasVFor (e : ElementNode) : Bool :=
  (e.starting_tag.directives.map fun d => d.v_for.isSome).getD false

/-- Is this node an `ElementNode`? -/
def isElementNode : Node → Bool
  | .element _ => true
  | _ => false

/-- `optimize_v_if_plus_v_for`: collapse a `<template>` wrapper with exactly
one Element child, moving the wrapper's `v-for` (if any, and if the child has
none) onto the child; bail out when both carry a `v-for`. -/
def optimize_v_if_plus_v_for (parent : ElementNode) : ElementNode :=
  -- This must be a `<template>` element with exactly one Element child
  if parent.children.length != 1 || parent.starting_tag.tag_name != "template" then
    parent
  else
    match parent.children with
    | [Node.element child] =>
      -- There must be at most one `v-for` for both parent and child
      if hasVFor parent && hasVFor child then
        parent
      else if hasVFor parent then
        -- Take parent's `v-for` and give it to the child
        let parent_directives := parent.starting_tag.directives.getD {}
        let child_directives := child.starting_tag.directives.getD {}
        child.setDirectives (some { child_directives with v_for := parent_directives.v_for })
      else
        -- Take the child and return it instead
        child
    | _ => parent

/-! ## Conditional folding (third stage of `optimize_children`, lines 119-216) -/

/-- `finish_seq!`: emit the open sequence, if any. -/
def finishSeq : Option ConditionalNodeSequence → List Node
  | none => []
  | some s => [Node.conditionalSeq s]

/-- The `for mut child in children.drain(..)` loop folding
`v-if`/`v-else-if`/`v-else` runs into `ConditionalNodeSequence`s, with `seq`
as the open-sequence accumulator. -/
def foldConditionals : Option ConditionalNodeSequence → List Node → List Node
  | seq, [] => finishSeq seq
  | seq, child :: rest =>
    match child with
    | Node.element el =>
      match el.starting_tag.directives with
      | none => finishSeq seq ++ Node.element el :: foldConditionals none rest
      | some dirs =>
        match dirs.v_if with
        | some v_if_cond =>
          -- `directives.v_if.take()`: strip the condition, close any open
          -- sequence, open a new one around the (collapsed) element
          finishSeq seq ++
            foldConditionals (some (.mk
              (.mk v_if_cond
                (optimize_v_if_plus_v_for (el.setDirectives (some { dirs with v_if := none }))))
              [] none)) rest
        | none =>
          match dirs.v_else_if with
          | some v_else_if_cond =>
            match seq with
            | none =>
              -- v-else-if without v-if: pass through (with the directive taken)
              Node.element (el.setDirectives (some { dirs with v_else_if := none })) ::
                foldConditionals none rest
            | some s =>
              foldConditionals (some (.mk s.if_node
                (s.else_if_nodes ++ [.mk v_else_if_cond
                  (optimize_v_if_plus_v_for
                    (el.setDirectives (some { dirs with v_else_if := none })))])
                s.else_node)) rest
          | none =>
            match dirs.v_else with
            | some _ =>
              match seq with
              | none =>
                -- v-else without v-if: pass through unmodified
                Node.element el :: foldConditionals none rest
              | some s =>
                -- `else` always finishes the sequence
                finishSeq (some (.mk s.if_node s.else_if_nodes
                  (some (optimize_v_if_plus_v_for el)))) ++ foldConditionals none rest
            | none => finishSeq seq ++ Node.element el :: foldConditionals none rest
    | Node.comment c =>
      match seq with
      | some _ => foldConditionals seq rest
      | none => Node.comment c :: foldConditionals none rest
    | other => finishSeq seq ++ other :: foldConditionals none rest

/-- An element carrying an else-if continuation (no `v-if`, has `v-else-if`). -/
def isElseIfOnly (e : ElementNode) : Bool :=
  match e.starting_tag.directives with
  | some d => decide (d.v_if = none) && d.v_else_if.isSome
  | none => false

/-- The `Conditional` branch the fold builds from an else-if element. -/
def elseIfBranch (e : ElementNode) : Conditional :=
  let d := e.starting_tag.directives.getD {}
  .mk (d.v_else_if.getD (Expr.raw ""))
    (optimize_v_if_plus_v_for (e.setDirectives (some { d with v_else_if := none })))

/-- A node that is neither an Element nor a Comment. -/
def isPlainNonElement : Node → Bool
  | .text _ => true
  | .interpolation _ => true
  | .conditionalSeq _ => true
  | _ => false

/-- An element with no conditional directive at all. -/
def noCondDirectives (e : ElementNode) : Bool :=
  match e.starting_tag.directives with
  | some d => decide (d.v_if = none) && decide (d.v_else_if = none) && decide (d.v_else = none)
  | none => true

/-- An orphaned else-if element (`<h2 v-else-if="foo">` with no preceding if). -/
def c3D : VueDirectives := { v_else_if := some (Expr.raw "foo") }

def c3Orphan : ElementNode := .mk ⟨"h2", [], some c3D⟩ [] 0 .element {}

/-- Projection used to tell the orphan apart from its passed-through form. -/
def vElseIfOfHead : List Node → Option Expr
  | Node.element e :: _ => (e.starting_tag.directives.getD {}).v_else_if
  | _ => none

def c5DIf : VueDirectives := { v_if := some (Expr.raw "a") }

def c5If : ElementNode := .mk ⟨"h1", [], some c5DIf⟩ [] 0 .element {}

def c5Elif : ElementNode := .mk ⟨"h2", [], some { v_else_if := some (Expr.raw "b") }⟩ [] 0 .element {}

def c5DE : VueDirectives := { v_else := some () }

def c5Else : ElementNode := .mk ⟨"h3", [], some c5DE⟩ [] 0 .element {}

def c8PD : VueDirectives :=
  { v_for := some { iterable := Expr.raw "3", itervar := Expr.ident "i" },
    v_show := some (Expr.raw "cond") }

def c8Child : ElementNode := .mk ⟨"p", [], none⟩ [Node.text "x"] 0 .element {}

def c8Wrapper : ElementNode := .mk ⟨"template", [], some c8PD⟩ [Node.element c8Child] 0 .element {}

def c10Child : ElementNode :=
  .mk ⟨"p", [], some { v_memo := some (Expr.raw "m") }⟩ [Node.text "x"] 0 .element {}

def c10PD : VueDirectives :=
  { v_for := some { iterable := Expr.raw "list", itervar := Expr.ident "i" },
    v_slot := some { value := some (Expr.ident "s") },
    v_show := some (Expr.raw "cond") }

def c10Wrapper : ElementNode :=
  .mk ⟨"template", [], some c10PD⟩ [Node.element c10Child] 0 .element {}

/-! ## BindingsHelper and the external capabilities (spec §6) -/

/-- The slice of `BindingsHelper` read or written by `ast_transform.rs`:
the scope table, the component-resolution table and the declared setup
bindings (name, classification). -/
structure BindingsHelper where
  template_scopes : List TemplateScope := []
  components : List (String × ComponentBinding) := []
  setup_bindings : List (String × BindingTypes) := []

/-- Modelled from the spec: the external collaborators consumed by this pass
(spec §6) — `transform_expr(expr, scope_id) -> touched_reactive` (pure value
version of the in-place mutation), the equivalent two-way-binding transform
that additionally mutates `PatchHints`, `collect_variables` from
`collect_vars.rs`, the HTML/built-in tag vocabularies (`is_html_tag`,
`VUE_BUILTINS`) and `is_from_default_slot` from `fervid_core`.  All are
outside `src/` and treated as abstract capabilities. -/
structure ExternalOracle where
  transform_expr : Expr → Nat → Expr × Bool
  transform_v_model : VModelDirective → Nat → PatchHints → VModelDirective × PatchHints
  collect_variables : Expr → List String
  is_html_tag : String → Bool
  builtins : String → Option BuiltinType
  is_from_default_slot : Node → Bool

/-- Component-table lookup (`self.bindings_helper.components.get`). -/
def lookupComponent (h : BindingsHelper) (tag_name : String) : Option ComponentBinding :=
  (h.components.find? fun p => p.1 == tag_name).map (·.2)

/-- Split a character list on `'-'`, like Rust `str::split('-')`. -/
def splitOnDash : List Char → List (List Char)
  | [] => [[]]
  | c :: rest =>
    let r := splitOnDash rest
    if c = '-' then [] :: r
    else
      match r with
      | w :: ws => (c :: w) :: ws
      | [] => [[c]]

/-- Uppercase the first code point of a word and keep the rest.  (Rust
`char::to_uppercase` may expand one character into several; `Char.toUpper`
is its single-code-point restriction, which agrees on ASCII names.) -/
def capitalizeWord : List Char → List Char
  | [] => []
  | c :: rest => c.toUpper :: rest

/-- The name searched by `maybe_resolve_component`: kebab-case
`component-name`s are transformed to `ComponentName`s, other names pass
unchanged. -/
def searchedComponentName (tag_name : String) : String :=
  if tag_name.data.contains '-' then
    String.mk ((splitOnDash tag_name.data).map capitalizeWord).flatten
  else tag_name

/-- `maybe_resolve_component` (lines 544-605): fuzzy-match the tag name
against the declared setup bindings, memoized in `components`. -/
def maybe_resolve_component (O : ExternalOracle) (current_scope : Nat)
    (h : BindingsHelper) (tag_name : String) : BindingsHelper :=
  -- Check the existing resolutions; do nothing if found
  if (h.components.find? fun p => p.1 == tag_name).isSome then h
  else
    let searched := searchedComponentName tag_name
    match h.setup_bindings.find? fun b => b.1 == searched with
    | some found =>
      let resolved_to := Expr.ident found.1
      -- For `Component` binding types, do not transform
      let resolved_to :=
        if found.2 ≠ BindingTypes.component then
          (O.transform_expr resolved_to current_scope).1
        else resolved_to
      { h with components := h.components ++ [(tag_name, ComponentBinding.resolved resolved_to)] }
    | none =>
      { h with components := h.components ++ [(tag_name, ComponentBinding.unresolved)] }

/-- The helper state of the resolution example: a single declared local
binding `TestComponent`, classified as a component. -/
def c9Helper : BindingsHelper :=
  { setup_bindings := [("TestComponent", BindingTypes.component)] }

/-! ## The tree walker (`TemplateVisitor`, lines 278-511) -/

/-- Modelled from the spec: `fervid_core::check_attribute_name` — does the
attribute (regular, or bound with a static string argument) carry the given
literal name? -/
def check_attribute_name (attr : AttributeOrBinding) (expected : String) : Bool :=
  match attr with
  | .regularAttribute name _ => name == expected
  | .vBind d =>
    match d.argument with
    | some (.str s) => s == expected
    | _ => false
  | .vOn _ => false

/-- `recognize_element_kind` (lines 515-541). -/
def recognize_element_kind (O : ExternalOracle) (starting_tag : StartingTag) : ElementKind :=
  match O.builtins starting_tag.tag_name with
  | some builtin_type =>
    -- Special case for `<component>`: without `is` it is not a built-in
    if starting_tag.tag_name == "component" &&
        !(starting_tag.attributes.any fun attr => check_attribute_name attr "is") then
      ElementKind.component
    else
      ElementKind.builtin builtin_type
  | none =>
    if O.is_html_tag starting_tag.tag_name then ElementKind.element
    else ElementKind.component

/-- The visitor state: the shared `BindingsHelper` plus the current scope. -/
structure VisitState where
  helper : BindingsHelper
  current_scope : Nat

/-- Append names to the variables of the scope at `idx`
(`collect_variables(&expr, &mut scope)`). -/
def collectInto (helper : BindingsHelper) (idx : Nat) (names : List String) : BindingsHelper :=
  { helper with template_scopes :=
      helper.template_scopes.modify (fun sc => { sc with vars := sc.vars ++ names }) idx }

/-- Does a directives record ask for a new scope (`v_for.is_some() ||
v_slot.is_some()`)? -/
def carriesD : Option VueDirectives → Bool
  | some d => d.v_for.isSome || d.v_slot.isSome
  | none => false

/-- Does the element ask for a new scope? -/
def carriesScope (el : ElementNode) : Bool :=
  carriesD el.starting_tag.directives

/-- The scoping part of `visit_element_node` (lines 292-350): allocate a new
scope for `v-for`/`v-slot`, collect the introduced variables, transform the
loop iterable and set the fragment patch flags on the `v-for` directive. -/
def scopeStage (O : ExternalOracle) (helper0 : BindingsHelper) (parent_scope : Nat)
    (attributes : List AttributeOrBinding) :
    Option VueDirectives → Option VueDirectives × Nat × BindingsHelper
  | none => (none, parent_scope, helper0)
  | some dirs =>
    -- Create a new scope
    let createScope := dirs.v_for.isSome || dirs.v_slot.isSome
    -- New scope will have ID equal to length
    let scope_to_use := if createScope then helper0.template_scopes.length else parent_scope
    let helper1 :=
      if createScope then
        { helper0 with template_scopes :=
            helper0.template_scopes ++ [{ vars := [], parent := parent_scope }] }
      else helper0
    let dh : VueDirectives × BindingsHelper :=
      match dirs.v_for with
      | some v_for =>
        -- Get the iterator variable and collect its variables
        let helperA := collectInto helper1 scope_to_use (O.collect_variables v_for.itervar)
        -- Transform the iterable
        let tres := O.transform_expr v_for.iterable scope_to_use
        -- Add patch flags
        let patch_flags :=
          if !tres.2 then
            { v_for.patch_flags with stableFragment := true }
          else if attributes.any fun attr => check_attribute_name attr "key" then
            { v_for.patch_flags with keyedFragment := true }
          else
            { v_for.patch_flags with unkeyedFragment := true }
        ({ dirs with v_for := some { v_for with iterable := tres.1, patch_flags := patch_flags } },
          helperA)
      | none => (dirs, helper1)
    -- Collect slot bindings
    let helper3 :=
      match dirs.v_slot with
      | some { value := some v_slot_value, .. } =>
        collectInto dh.2 scope_to_use (O.collect_variables v_slot_value)
      | _ => dh.2
    (some dh.1, scope_to_use, helper3)

/-- One step of the VBind/VOn attribute loop (lines 358-419): transform the
bound value and accumulate patch hints. -/
def transformAttr (O : ExternalOracle) (scope : Nat) (is_component : Bool)
    (patch_hints : PatchHints) (attr : AttributeOrBinding) :
    PatchHints × AttributeOrBinding :=
  match attr with
  | .vBind v_bind =>
    let tres := O.transform_expr v_bind.value scope
    let has_bindings := tres.2
    let attr' := AttributeOrBinding.vBind { v_bind with value := tres.1 }
    match v_bind.argument with
    | none | some (.expr _) =>
      -- Dynamically-named: FULL_PROPS, exclusive with CLASS, STYLE and PROPS
      ({ flags := { patch_hints.flags with
            props := false, cls := false, style := false, fullProps := true },
         props := [] }, attr')
    | some (.str argument) =>
      -- If we are FULL_PROPS already, or nothing reactive, do not add hints
      if !has_bindings || patch_hints.flags.fullProps then (patch_hints, attr')
      -- Skip `key` prop
      else if argument == "key" then (patch_hints, attr')
      -- `class`/`style` are PROPS on components
      else if is_component then
        ({ flags := { patch_hints.flags with props := true },
           props := patch_hints.props ++ [argument] }, attr')
      else if argument == "class" then
        ({ patch_hints with flags := { patch_hints.flags with cls := true } }, attr')
      else if argument == "style" then
        ({ patch_hints with flags := { patch_hints.flags with style := true } }, attr')
      else
        ({ flags := { patch_hints.flags with props := true },
           props := patch_hints.props ++ [argument] }, attr')
  | .vOn d =>
    match d.handler with
    | some handler =>
      (patch_hints, .vOn { d with handler := some (O.transform_expr handler scope).1 })
    | none => (patch_hints, attr)
  | .regularAttribute n v => (patch_hints, .regularAttribute n v)

/-- The full attribute loop. -/
def transformAttrs (O : ExternalOracle) (scope : Nat) (is_component : Bool) :
    PatchHints → List AttributeOrBinding → PatchHints × List AttributeOrBinding
  | hints, [] => (hints, [])
  | hints, attr :: rest =>
    let r1 := transformAttr O scope is_component hints attr
    let r2 := transformAttrs O scope is_component r1.1 rest
    (r2.1, r1.2 :: r2.2)

/-- The `v_model` loop (lines 436-439): the external two-way-binding
transform, threading the patch hints. -/
def transformVModels (O : ExternalOracle) (scope : Nat) :
    PatchHints → List VModelDirective → List VModelDirective × PatchHints
  | hints, [] => ([], hints)
  | hints, m :: rest =>
    let r1 := O.transform_v_model m scope hints
    let r2 := transformVModels O scope r1.2 rest
    (r1.1 :: r2.1, r2.2)

/-- The directive-transform block of `visit_element_node` (lines 421-440):
`maybe_transform!` for `v_html`/`v_memo`/`v_show`/`v_text` plus the `v_model`
loop. -/
def transformDirectives (O : ExternalOracle) (scope : Nat) (hints : PatchHints) :
    Option VueDirectives → Option VueDirectives × PatchHints
  | none => (none, hints)
  | some dirs =>
    let vres := transformVModels O scope hints dirs.v_model
    (some { dirs with
        v_html := dirs.v_html.map fun e => (O.transform_expr e scope).1,
        v_memo := dirs.v_memo.map fun e => (O.transform_expr e scope).1,
        v_show := dirs.v_show.map fun e => (O.transform_expr e scope).1,
        v_text := dirs.v_text.map fun e => (O.transform_expr e scope).1,
        v_model := vres.1 }, vres.2)

/-- Stable reordering of a component's children so that non-default-slot
content comes first (lines 109-116): a stable sort by the boolean key
`is_from_default_slot` is exactly "all false-key nodes in order, then all
true-key nodes in order". -/
def sortByDefaultSlot (O : ExternalOracle) (children : List Node) : List Node :=
  children.filter (fun n => !(O.is_from_default_slot n)) ++
    children.filter (fun n => O.is_from_default_slot n)

/-- `optimize_children` (lines 68-216): whitespace trim, slot reordering for
components, conditional folding.  (The Rust fold loop is guarded by
`!children.is_empty()`; on the empty list the fold is the identity anyway.) -/
def optimize_children (O : ExternalOracle) (children : List Node)
    (element_kind : ElementKind) : List Node :=
  let trimmed := trimWhitespace children
  let sorted :=
    if element_kind == ElementKind.component && decide (0 < trimmed.length) then
      sortByDefaultSlot O trimmed
    else trimmed
  foldConditionals none sorted

/-- Is a visited child an Element or ConditionalSeq (TEXT flag exclusion)? -/
def isElementOrSeq : Node → Bool
  | .element _ => true
  | .conditionalSeq _ => true
  | _ => false

/-- `visit_interpolation` (lines 502-510). -/
def visitInterpolation (O : ExternalOracle) (s : VisitState) (i : Interpolation) :
    Interpolation × VisitState :=
  let tres := O.transform_expr i.value s.current_scope
  ({ value := tres.1, template_scope := s.current_scope, patch_flag := tres.2 }, s)

mutual

/-- `Node::visit_mut_with` (lines 608-617), fuelled. -/
def visitNode (O : ExternalOracle) (fuel : Nat) (s : VisitState) (n : Node) :
    Node × VisitState :=
  match fuel with
  | 0 => (n, s)
  | fuel' + 1 =>
    match n with
    | .element el =>
      let r := visitElementNode O fuel' s el
      (.element r.1, r.2)
    | .conditionalSeq cond =>
      let r := visitConditionalNode O fuel' s cond
      (.conditionalSeq r.1, r.2)
    | .interpolation i =>
      let r := visitInterpolation O s i
      (.interpolation r.1, r.2)
    | other => (other, s)

/-- `visit_element_node` (lines 279-478), fuelled. -/
def visitElementNode (O : ExternalOracle) (fuel : Nat) (s : VisitState)
    (el : ElementNode) : ElementNode × VisitState :=
  match fuel with
  | 0 => (el, s)
  | fuel' + 1 =>
    let parent_scope := s.current_scope
    -- Mark the node with a correct type (element, component or built-in)
    let element_kind := recognize_element_kind O el.starting_tag
    let is_component := element_kind == ElementKind.component
    let helper1 :=
      if is_component then
        maybe_resolve_component O parent_scope s.helper el.starting_tag.tag_name
      else s.helper
    -- Scoping directives (v-for / v-slot)
    let sres := scopeStage O helper1 parent_scope el.starting_tag.attributes
      el.starting_tag.directives
    let dirs2 := sres.1
    let scope_to_use := sres.2.1
    let helper2 := sres.2.2
    -- Transform the VBind and VOn attributes
    let ares := transformAttrs O scope_to_use is_component el.patch_hints
      el.starting_tag.attributes
    let hints3 := ares.1
    let attrs3 := ares.2
    -- Transform the directives
    let dres := transformDirectives O scope_to_use hints3 dirs2
    let dirs4 := dres.1
    let hints4 := dres.2
    -- Merge conditional nodes and clean up whitespace
    let kidsOpt := optimize_children O el.children element_kind
    -- Recursively visit children
    let vres := visitNodes O fuel' { helper := helper2, current_scope := scope_to_use } kidsOpt
    let kids5 := vres.1
    let s5 := vres.2
    -- TEXT patch flag
    let is_children_text_only :=
      (element_kind == ElementKind.element) && !kidsOpt.isEmpty &&
        !(kids5.any isElementOrSeq)
    let has_dynamic_interpolation := kids5.any fun c =>
      match c with
      | .interpolation i => i.patch_flag
      | _ => false
    let hints6 :=
      if is_children_text_only && has_dynamic_interpolation then
        { hints4 with flags := { hints4.flags with text := true } }
      else hints4
    (.mk ⟨el.starting_tag.tag_name, attrs3, dirs4⟩ kids5 scope_to_use element_kind hints6,
      { helper := s5.helper, current_scope := parent_scope })

/-- `visit_conditional_node` (lines 480-500), fuelled: conditions are
transformed under the parent scope, then every branch element is visited. -/
def visitConditionalNode (O : ExternalOracle) (fuel : Nat) (s : VisitState)
    (c : ConditionalNodeSequence) : ConditionalNodeSequence × VisitState :=
  match fuel with
  | 0 => (c, s)
  | fuel' + 1 =>
    let if_cond' := (O.transform_expr c.if_node.condition s.current_scope).1
    let rIf := visitElementNode O fuel' s c.if_node.node
    let rElifs := visitConditionals O fuel' rIf.2 c.else_if_nodes
    let rElse :=
      match c.else_node with
      | some e =>
        let r := visitElementNode O fuel' rElifs.2 e
        (some r.1, r.2)
      | none => (none, rElifs.2)
    (.mk (.mk if_cond' rIf.1) rElifs.1 rElse.1, rElse.2)

/-- The `else_if_nodes` loop of `visit_conditional_node`. -/
def visitConditionals (O : ExternalOracle) (fuel : Nat) (s : VisitState) :
    List Conditional → List Conditional × VisitState
  | [] => ([], s)
  | cond :: rest =>
    let cond' := (O.transform_expr cond.condition s.current_scope).1
    let r := visitElementNode O fuel s cond.node
    let rr := visitConditionals O fuel r.2 rest
    (.mk cond' r.1 :: rr.1, rr.2)

/-- The children loop of `visit_element_node`. -/
def visitNodes (O : ExternalOracle) (fuel : Nat) (s : VisitState) :
    List Node → List Node × VisitState
  | [] => ([], s)
  | n :: rest =>
    let r := visitNode O fuel s n
    let rr := visitNodes O fuel r.2 rest
    (r.1 :: rr.1, rr.2)

end

/-- A concrete external oracle for closed instances: the expression transform
is the identity reporting nothing reactive, the v-model transform leaves the
hints alone, no variables are collected, no tag is an HTML tag or built-in. -/
def trivialOracle : ExternalOracle :=
  { transform_expr := fun e _ => (e, false),
    transform_v_model := fun m _ h => (m, h),
    collect_variables := fun _ => [],
    is_html_tag := fun _ => false,
    builtins := fun _ => none,
    is_from_default_slot := fun _ => false }

/-- Initial visitor state: one root scope, current scope 0. -/
def c2State : VisitState :=
  { helper := { template_scopes := [⟨[], 0⟩] }, current_scope := 0 }

/-- Directives with a value-less `v-slot` and no `v-for`. -/
def c2SlotD : VueDirectives := { v_slot := some { value := none } }

def c2SlotEl : ElementNode := .mk ⟨"div", [], some c2SlotD⟩ [] 0 .element {}

def c2ForD : VueDirectives :=
  { v_for := some { iterable := Expr.raw "3", itervar := Expr.ident "i" } }

def c2ForEl : ElementNode := .mk ⟨"div", [], some c2ForD⟩ [] 0 .element {}

/-! ### FULL_PROPS exclusivity (C6) -/

/-- The claimed invariant: `FULL_PROPS` is mutually exclusive with
`PROPS`/`CLASS`/`STYLE`, and when set the dynamic prop-name list is empty. -/
def HintsInv (h : PatchHints) : Prop :=
  h.flags.fullProps = true →
    h.flags.props = false ∧ h.flags.cls = false ∧ h.flags.style = false ∧ h.props = []

instance (h : PatchHints) : Decidable (HintsInv h) := by
  unfold HintsInv
  infer_instance

/-- The attribute output of `transformAttr`, which does not depend on the
accumulated patch hints: every binding's value is run through the expression
transformer regardless of the hints state. -/
def transformAttrOnly (O : ExternalOracle) (scope : Nat) :
    AttributeOrBinding → AttributeOrBinding
  | .vBind vb => .vBind { vb with value := (O.transform_expr vb.value scope).1 }
  | .vOn d =>
    match d.handler with
    | some handler => .vOn { d with handler := some (O.transform_expr handler scope).1 }
    | none => .vOn d
  | .regularAttribute n v => .regularAttribute n v

def c6Attrs : List AttributeOrBinding :=
  [.vBind { argument := none, value := Expr.raw "obj" },
   .vBind { argument := some (.str "class"), value := Expr.raw "c" }]

def c6El : ElementNode := .mk ⟨"div", c6Attrs, none⟩ [] 0 .element {}

/-! ### Fragment flags on loop directives (C7) -/

/-- The three fragment bits of a flag set. -/
def fragBits (f : PatchFlags) : Bool × Bool × Bool :=
  (f.stableFragment, f.keyedFragment, f.unkeyedFragment)

def c7VF : VForDirective := { iterable := Expr.raw "3", itervar := Expr.ident "i" }

@[simp] theorem ElementNode.starting_tag_mk (st c ts k ph) :
    starting_tag (.mk st c ts k ph) = st := rfl

@[simp] theorem ElementNode.children_mk (st c ts k ph) :
    children (.mk st c ts k ph) = c := rfl

@[simp] theorem ElementNode.template_scope_mk (st c ts k ph) :
    template_scope (.mk st c ts k ph) = ts := rfl

@[simp] theorem ElementNode.kind_mk (st c ts k ph) :
    kind (.mk st c ts k ph) = k := rfl

@[simp] theorem ElementNode.patch_hints_mk (st c ts k ph) :
    patch_hints (.mk st c ts k ph) = ph := rfl

@[simp] theorem ConditionalNodeSequence.if_node_mk (i ei e) :
    if_node (.mk i ei e) = i := rfl

@[simp] theorem ConditionalNodeSequence.else_if_nodes_mk (i ei e) :
    else_if_nodes (.mk i ei e) = ei := rfl

@[simp] theorem ConditionalNodeSequence.else_node_mk (i ei e) :
    else_node (.mk i ei e) = e := rfl

@[simp] theorem Conditional.condition_mk (c n) : condition (.mk c n) = c := rfl

@[simp] theorem Conditional.node_mk (c n) : node (.mk c n) = n := rfl

lemma windowBad_cons (x : Node) (l : List Node) (k : Nat) :
    windowBad (x :: l) (k+1) = windowBad l k := by
  simp [windowBad]

lemma windowBad_of_short {l : List Node} (h : l.length ≤ 2) (k : Nat) :
    windowBad l k = false := by
  have hge : l[k+2]? = none := List.getElem?_eq_none (by omega)
  simp [windowBad, hge]

lemma testBit_midMask : ∀ (xs : List Node) (s i : Nat), s + xs.length ≤ 128 → i < 128 →
    ((midMask xs s).testBit i = true ↔ ∃ k, i = s + k + 1 ∧ windowBad xs k = true)
  | [], s, i, _, _ => by
    simp [midMask, Nat.zero_testBit, windowBad_of_short (l := ([] : List Node)) (by simp)]
  | [a], s, i, _, _ => by
    simp [midMask, Nat.zero_testBit, windowBad_of_short (l := [a]) (by simp)]
  | [a, b], s, i, _, _ => by
    simp [midMask, Nat.zero_testBit, windowBad_of_short (l := [a, b]) (by simp)]
  | a :: b :: c :: rest, s, i, hs, hi => by
    have hlen : s + 1 < 128 := by
      simp only [List.length_cons] at hs
      omega
    have hmod : (s + 1) % 128 = s + 1 := Nat.mod_eq_of_lt hlen
    have hrec := testBit_midMask (b :: c :: rest) (s+1) i
      (by simp only [List.length_cons] at hs ⊢; omega) hi
    have hw0 : windowBad (a :: b :: c :: rest) 0 =
        (isElementOrComment a && isWsText b && isElementOrComment c) := by
      simp [windowBad]
    rw [midMask, Nat.testBit_or, Bool.or_eq_true, hrec]
    constructor
    · rintro (hbit | ⟨k, hk, hwb⟩)
      · by_cases hcond : (isElementOrComment a && isWsText b && isElementOrComment c) = true
        · rw [if_pos hcond, Nat.shiftLeft_eq, one_mul, Nat.testBit_two_pow, hmod] at hbit
          have hsi : s + 1 = i := of_decide_eq_true hbit
          refine ⟨0, by omega, ?_⟩
          rw [hw0]
          exact hcond
        · rw [if_neg hcond, Nat.zero_testBit] at hbit
          exact absurd hbit (by simp)
      · exact ⟨k + 1, by omega, by rw [windowBad_cons]; exact hwb⟩
    · rintro ⟨k, hk, hwb⟩
      match k with
      | 0 =>
        rw [hw0] at hwb
        left
        rw [if_pos hwb, Nat.shiftLeft_eq, one_mul, Nat.testBit_two_pow, hmod]
        exact decide_eq_true (by omega)
      | k' + 1 =>
        right
        refine ⟨k', by omega, ?_⟩
        rw [windowBad_cons] at hwb
        exact hwb

lemma testBit_leadMask (l : List Node) (i : Nat) :
    ((leadMask l).testBit i = true) ↔ (i = 0 ∧ l.head?.elim false isWsText = true) := by
  rw [leadMask]
  match hh : l.head? with
  | none => simp [Nat.zero_testBit]
  | some x =>
    simp only [Option.elim]
    by_cases hws : isWsText x = true
    · rw [if_pos hws, Nat.shiftLeft_eq, one_mul, Nat.testBit_two_pow]
      simp [hws]
      omega
    · rw [if_neg hws]
      simp [Nat.zero_testBit]
      intro h
      simp [Bool.eq_false_iff.mpr hws]

lemma testBit_trailMask (l : List Node) (i : Nat) (hn : l.length ≤ 128) :
    ((trailMask l).testBit i = true) ↔
      (i = l.length - 1 ∧ l.getLast?.elim false isWsText = true) := by
  rw [trailMask]
  match hh : l.getLast? with
  | none => simp [Nat.zero_testBit]
  | some x =>
    have hne : l ≠ [] := by
      intro he
      rw [he] at hh
      simp at hh
    have hpos : 1 ≤ l.length := List.length_pos.mpr hne
    have hmod : (l.length - 1) % 128 = l.length - 1 := Nat.mod_eq_of_lt (by omega)
    simp only [Option.elim]
    by_cases hws : isWsText x = true
    · rw [if_pos hws, Nat.shiftLeft_eq, one_mul, Nat.testBit_two_pow, hmod]
      simp [hws]
      omega
    · rw [if_neg hws]
      simp [Nat.zero_testBit]
      intro h
      simp [Bool.eq_false_iff.mpr hws]

lemma testBit_discardMask (l : List Node) (i : Nat) (hn : l.length ≤ 128)
    (hi : i < 128) :
    (discardMask l).testBit i = specTrimDiscard l i := by
  rw [Bool.eq_iff_iff, discardMask, Nat.testBit_or, Nat.testBit_or,
    Bool.or_eq_true, Bool.or_eq_true, testBit_leadMask, testBit_trailMask _ _ hn,
    testBit_midMask l 0 i (by omega) hi]
  rw [specTrimDiscard]
  simp only [Bool.or_eq_true, Bool.and_eq_true, beq_iff_eq, decide_eq_true_eq]
  constructor
  · rintro ((h | h) | ⟨k, hk, hwb⟩)
    · exact Or.inl (Or.inl h)
    · exact Or.inl (Or.inr h)
    · right
      rw [windowBad] at hwb
      simp only [Bool.and_eq_true] at hwb
      have hk2 : k + 1 = i := by omega
      have hk3 : k + 2 = i + 1 := by omega
      have hk1 : k = i - 1 := by omega
      rw [hk2, hk3, hk1] at hwb
      exact ⟨⟨⟨by omega, hwb.1.1⟩, hwb.1.2⟩, hwb.2⟩
  · rintro ((h | h) | ⟨⟨⟨h1, h2⟩, h3⟩, h4⟩)
    · exact Or.inl (Or.inl h)
    · exact Or.inl (Or.inr h)
    · right
      refine ⟨i - 1, by omega, ?_⟩
      rw [windowBad]
      have hk2 : i - 1 + 1 = i := by omega
      have hk3 : i - 1 + 2 = i + 1 := by omega
      rw [hk2, hk3]
      simp only [Bool.and_eq_true]
      exact ⟨⟨h2, h3⟩, h4⟩

lemma and_shiftLeft_eq_zero (x j : Nat) :
    (x &&& (1 <<< j) == 0) = !x.testBit j := by
  rw [Bool.eq_iff_iff, Nat.shiftLeft_eq, one_mul, beq_iff_eq, Nat.and_two_pow]
  rcases h : x.testBit j <;> simp [h]

lemma retainByMask_eq_filterIdxFrom (mask : Nat) :
    ∀ (k : Nat) (l : List Node),
      retainByMask mask k l = filterIdxFrom (fun i => !mask.testBit (i % 128)) k l
  | _, [] => rfl
  | k, x :: xs => by
    rw [retainByMask, filterIdxFrom, and_shiftLeft_eq_zero,
      retainByMask_eq_filterIdxFrom mask (k+1) xs]

lemma filterIdxFrom_congr {p q : Nat → Bool} :
    ∀ (k : Nat) (l : List Node), (∀ j, k ≤ j → j < k + l.length → p j = q j) →
      filterIdxFrom p k l = filterIdxFrom q k l
  | _, [], _ => rfl
  | k, x :: xs, h => by
    have hk : p k = q k := h k le_rfl (by simp)
    have ht := filterIdxFrom_congr (k+1) xs (fun j h1 h2 => h j (by omega) (by simp at h2 ⊢; omega))
    rw [filterIdxFrom, filterIdxFrom, hk, ht]

/-- The trim stage coincides with the spec-side filter whenever the sibling
list fits in the 128-bit discard mask. -/
lemma trimWhitespace_eq_specTrim (l : List Node) (h : l.length ≤ 128) :
    trimWhitespace l = specTrim l := by
  rw [trimWhitespace, specTrim, retainByMask_eq_filterIdxFrom]
  apply filterIdxFrom_congr
  intro j h0 hj
  have hj' : j < l.length := by omega
  have hjm : j % 128 = j := Nat.mod_eq_of_lt (by omega)
  rw [hjm, testBit_discardMask l j h (by omega)]

set_option maxRecDepth 10000 in
/-- **C1** (counterexample): the whitespace-trim stage does not implement the
claimed behaviour for sibling lists of every length.  On a 129-node list whose
only removable node is the trailing whitespace text at index 128, the `u128`
discard mask wraps (`1 << 128` masks the shift amount to bit 0), so the stage
also drops the leading comment node: its output differs from the filter by the
claimed predicates. -/
theorem c1_trim_unbounded_counterexample :
    trimWhitespace c1WrapList ≠ specTrim c1WrapList := by
  intro h
  have h1 : (trimWhitespace c1WrapList).length = 127 := by decide
  have h2 : (specTrim c1WrapList).length = 128 := by decide
  rw [h, h2] at h1
  exact absurd h1 (by decide)

/-- **C1** (amended): for every sibling list of length at most 128 (the width
of the discard mask), the whitespace-trim stage of the Children Optimizer
removes exactly the nodes selected by the claimed predicates — a leading or
trailing text node whose trimmed content is empty, and a whitespace-only text
node strictly between two Element/Comment neighbours — and preserves all other
nodes in order (in particular whitespace-only text adjacent to an
Interpolation is retained, since an Interpolation neighbour never satisfies
the Element/Comment window predicate). -/
theorem c1_trim_matches_spec (l : List Node) (h : l.length ≤ 128) :
    trimWhitespace l = specTrim l :=
  trimWhitespace_eq_specTrim l h

/-- Witness for `c1_trim_matches_spec` at a concrete input. -/
theorem c1_trim_matches_spec_witness :
    c1Example.length ≤ 128 ∧ trimWhitespace c1Example = specTrim c1Example :=
  ⟨by decide, c1_trim_matches_spec c1Example (by decide)⟩

/-! ### Idempotence analysis of the trim stage -/

lemma filterIdxFrom_length_le (p : Nat → Bool) :
    ∀ (k : Nat) (l : List Node), (filterIdxFrom p k l).length ≤ l.length
  | _, [] => le_rfl
  | k, x :: xs => by
    rw [filterIdxFrom]
    by_cases h : p k = true
    · rw [if_pos h]
      simpa using filterIdxFrom_length_le p (k+1) xs
    · rw [if_neg h]
      have := filterIdxFrom_length_le p (k+1) xs
      simp only [List.length_cons]
      omega

lemma filterIdxFrom_eq_self (p : Nat → Bool) :
    ∀ (k : Nat) (l : List Node), (∀ j, j < l.length → p (k + j) = true) →
      filterIdxFrom p k l = l
  | _, [], _ => rfl
  | k, x :: xs, h => by
    have h0 : p k = true := by simpa using h 0 (by simp)
    rw [filterIdxFrom, if_pos h0,
      filterIdxFrom_eq_self p (k+1) xs (fun j hj => by
        have := h (j+1) (by simpa using Nat.succ_lt_succ hj)
        simpa [Nat.add_assoc, Nat.add_comm 1 j] using this)]

lemma filterIdxFrom_eq_nil (p : Nat → Bool) :
    ∀ (k : Nat) (l : List Node), filterIdxFrom p k l = [] →
      ∀ d, d < l.length → p (k + d) = false
  | _, [], _ => by simp
  | k, x :: xs, h => by
    rw [filterIdxFrom] at h
    by_cases hp : p k = true
    · rw [if_pos hp] at h
      exact absurd h (by simp)
    · rw [if_neg hp] at h
      intro d hd
      match d with
      | 0 => simpa using Bool.eq_false_iff.mpr hp
      | d' + 1 =>
        have := filterIdxFrom_eq_nil p (k+1) xs h d' (by simpa using Nat.lt_of_succ_lt_succ hd)
        simpa [Nat.add_assoc, Nat.add_comm 1 d'] using this

lemma filterIdxFrom_head (p : Nat → Bool) :
    ∀ (k : Nat) (l : List Node) (x : Node),
      (filterIdxFrom p k l)[0]? = some x →
      ∃ a, l[a]? = some x ∧ p (k + a) = true ∧ ∀ d, d < a → p (k + d) = false
  | k, [], x, h => by simp [filterIdxFrom] at h
  | k, v :: vs, x, h => by
    rw [filterIdxFrom] at h
    by_cases hp : p k = true
    · rw [if_pos hp] at h
      simp only [List.getElem?_cons_zero, Option.some.injEq] at h
      exact ⟨0, by simp [h], by simpa using hp, by omega⟩
    · rw [if_neg hp] at h
      obtain ⟨a, ha1, ha2, ha3⟩ := filterIdxFrom_head p (k+1) vs x h
      refine ⟨a + 1, by simpa using ha1, ?_, ?_⟩
      · rw [show k + (a + 1) = (k + 1) + a by omega]
        exact ha2
      · intro d hd
        match d with
        | 0 => simpa using Bool.eq_false_iff.mpr hp
        | d' + 1 =>
          rw [show k + (d' + 1) = (k + 1) + d' by omega]
          exact ha3 d' (by omega)

lemma filterIdxFrom_pair (p : Nat → Bool) :
    ∀ (k : Nat) (l : List Node) (j : Nat) (x y : Node),
      (filterIdxFrom p k l)[j]? = some x → (filterIdxFrom p k l)[j+1]? = some y →
      ∃ a b, a < b ∧ l[a]? = some x ∧ l[b]? = some y ∧
        p (k + a) = true ∧ p (k + b) = true ∧
        ∀ d, a < d → d < b → p (k + d) = false
  | k, [], j, x, y, hx, _ => by simp [filterIdxFrom] at hx
  | k, v :: vs, j, x, y, hx, hy => by
    rw [filterIdxFrom] at hx hy
    by_cases hp : p k = true
    · rw [if_pos hp] at hx hy
      match j with
      | 0 =>
        simp only [List.getElem?_cons_zero, Option.some.injEq] at hx
        simp only [List.getElem?_cons_succ] at hy
        obtain ⟨b, hb1, hb2, hb3⟩ := filterIdxFrom_head p (k+1) vs y hy
        refine ⟨0, b + 1, by omega, by simp [hx], by simpa using hb1, by simpa using hp, ?_, ?_⟩
        · rw [show k + (b + 1) = (k + 1) + b by omega]
          exact hb2
        · intro d hd1 hd2
          match d with
          | d' + 1 =>
            rw [show k + (d' + 1) = (k + 1) + d' by omega]
            exact hb3 d' (by omega)
      | j' + 1 =>
        simp only [List.getElem?_cons_succ] at hx hy
        obtain ⟨a, b, hab, ha1, hb1, ha2, hb2, hgap⟩ :=
          filterIdxFrom_pair p (k+1) vs j' x y hx hy
        refine ⟨a + 1, b + 1, by omega, by simpa using ha1, by simpa using hb1, ?_, ?_, ?_⟩
        · rw [show k + (a + 1) = (k + 1) + a by omega]
          exact ha2
        · rw [show k + (b + 1) = (k + 1) + b by omega]
          exact hb2
        · intro d hd1 hd2
          match d with
          | d' + 1 =>
            rw [show k + (d' + 1) = (k + 1) + d' by omega]
            exact hgap d' (by omega) (by omega)
    · rw [if_neg hp] at hx hy
      obtain ⟨a, b, hab, ha1, hb1, ha2, hb2, hgap⟩ :=
        filterIdxFrom_pair p (k+1) vs j x y hx hy
      refine ⟨a + 1, b + 1, by omega, by simpa using ha1, by simpa using hb1, ?_, ?_, ?_⟩
      · rw [show k + (a + 1) = (k + 1) + a by omega]
        exact ha2
      · rw [show k + (b + 1) = (k + 1) + b by omega]
        exact hb2
      · intro d hd1 hd2
        match d with
        | d' + 1 =>
          rw [show k + (d' + 1) = (k + 1) + d' by omega]
          exact hgap d' (by omega) (by omega)

lemma filterIdxFrom_last (p : Nat → Bool) :
    ∀ (k : Nat) (l : List Node) (j : Nat) (x : Node),
      (filterIdxFrom p k l)[j]? = some x → (filterIdxFrom p k l)[j+1]? = none →
      ∃ a, l[a]? = some x ∧ p (k + a) = true ∧
        ∀ d, a < d → d < l.length → p (k + d) = false
  | k, [], j, x, hx, _ => by simp [filterIdxFrom] at hx
  | k, v :: vs, j, x, hx, hy => by
    rw [filterIdxFrom] at hx hy
    by_cases hp : p k = true
    · rw [if_pos hp] at hx hy
      match j with
      | 0 =>
        simp only [List.getElem?_cons_zero, Option.some.injEq] at hx
        simp only [List.getElem?_cons_succ] at hy
        have hnil : filterIdxFrom p (k+1) vs = [] := by
          have := List.getElem?_eq_none_iff.mp hy
          exact List.length_eq_zero.mp (by omega)
        refine ⟨0, by simp [hx], by simpa using hp, ?_⟩
        intro d hd1 hd2
        match d with
        | d' + 1 =>
          rw [show k + (d' + 1) = (k + 1) + d' by omega]
          exact filterIdxFrom_eq_nil p (k+1) vs hnil d'
            (by simp only [List.length_cons] at hd2; omega)
      | j' + 1 =>
        simp only [List.getElem?_cons_succ] at hx hy
        obtain ⟨a, ha1, ha2, ha3⟩ := filterIdxFrom_last p (k+1) vs j' x hx hy
        refine ⟨a + 1, by simpa using ha1, ?_, ?_⟩
        · rw [show k + (a + 1) = (k + 1) + a by omega]
          exact ha2
        · intro d hd1 hd2
          match d with
          | d' + 1 =>
            rw [show k + (d' + 1) = (k + 1) + d' by omega]
            exact ha3 d' (by omega) (by simp only [List.length_cons] at hd2; omega)
    · rw [if_neg hp] at hx hy
      obtain ⟨a, ha1, ha2, ha3⟩ := filterIdxFrom_last p (k+1) vs j x hx hy
      refine ⟨a + 1, by simpa using ha1, ?_, ?_⟩
      · rw [show k + (a + 1) = (k + 1) + a by omega]
        exact ha2
      · intro d hd1 hd2
        match d with
        | d' + 1 =>
          rw [show k + (d' + 1) = (k + 1) + d' by omega]
          exact ha3 d' (by omega) (by simp only [List.length_cons] at hd2; omega)

/-- Like `filterIdxFrom_pair` at positions `0` and `1`, but additionally
returning that everything before the first kept index was rejected. -/
lemma filterIdxFrom_pair0 (p : Nat → Bool) :
    ∀ (k : Nat) (l : List Node) (y z : Node),
      (filterIdxFrom p k l)[0]? = some y → (filterIdxFrom p k l)[1]? = some z →
      ∃ b c, b < c ∧ l[b]? = some y ∧ l[c]? = some z ∧
        p (k + b) = true ∧ p (k + c) = true ∧
        (∀ d, d < b → p (k + d) = false) ∧
        (∀ d, b < d → d < c → p (k + d) = false)
  | k, [], y, z, hy, _ => by simp [filterIdxFrom] at hy
  | k, v :: vs, y, z, hy, hz => by
    rw [filterIdxFrom] at hy hz
    by_cases hp : p k = true
    · rw [if_pos hp] at hy hz
      simp only [List.getElem?_cons_zero, Option.some.injEq] at hy
      simp only [List.getElem?_cons_succ] at hz
      obtain ⟨c, hc1, hc2, hc3⟩ := filterIdxFrom_head p (k+1) vs z hz
      refine ⟨0, c + 1, by omega, by simp [hy], by simpa using hc1,
        by simpa using hp, ?_, by omega, ?_⟩
      · rw [show k + (c + 1) = (k + 1) + c by omega]
        exact hc2
      · intro d hd1 hd2
        match d with
        | d' + 1 =>
          rw [show k + (d' + 1) = (k + 1) + d' by omega]
          exact hc3 d' (by omega)
    · rw [if_neg hp] at hy hz
      obtain ⟨b, c, hbc, hb1, hc1, hb2, hc2, hpre, hgap⟩ :=
        filterIdxFrom_pair0 p (k+1) vs y z hy hz
      refine ⟨b + 1, c + 1, by omega, by simpa using hb1, by simpa using hc1, ?_, ?_, ?_, ?_⟩
      · rw [show k + (b + 1) = (k + 1) + b by omega]
        exact hb2
      · rw [show k + (c + 1) = (k + 1) + c by omega]
        exact hc2
      · intro d hd
        match d with
        | 0 => simpa using Bool.eq_false_iff.mpr hp
        | d' + 1 =>
          rw [show k + (d' + 1) = (k + 1) + d' by omega]
          exact hpre d' (by omega)
      · intro d hd1 hd2
        match d with
        | d' + 1 =>
          rw [show k + (d' + 1) = (k + 1) + d' by omega]
          exact hgap d' (by omega) (by omega)

lemma filterIdxFrom_triple (p : Nat → Bool) :
    ∀ (k : Nat) (l : List Node) (j : Nat) (x y z : Node),
      (filterIdxFrom p k l)[j]? = some x → (filterIdxFrom p k l)[j+1]? = some y →
      (filterIdxFrom p k l)[j+2]? = some z →
      ∃ a b c, a < b ∧ b < c ∧ l[a]? = some x ∧ l[b]? = some y ∧ l[c]? = some z ∧
        p (k + a) = true ∧ p (k + b) = true ∧ p (k + c) = true ∧
        (∀ d, a < d → d < b → p (k + d) = false) ∧
        (∀ d, b < d → d < c → p (k + d) = false)
  | k, [], j, x, y, z, hx, _, _ => by simp [filterIdxFrom] at hx
  | k, v :: vs, j, x, y, z, hx, hy, hz => by
    rw [filterIdxFrom] at hx hy hz
    by_cases hp : p k = true
    · rw [if_pos hp] at hx hy hz
      match j with
      | 0 =>
        simp only [List.getElem?_cons_zero, Option.some.injEq] at hx
        simp only [List.getElem?_cons_succ] at hy hz
        obtain ⟨b, c, hbc, hb1, hc1, hb2, hc2, hpre, hgap⟩ :=
          filterIdxFrom_pair0 p (k+1) vs y z hy hz
        refine ⟨0, b + 1, c + 1, by omega, by omega, by simp [hx],
          by simpa using hb1, by simpa using hc1, by simpa using hp, ?_, ?_, ?_, ?_⟩
        · rw [show k + (b + 1) = (k + 1) + b by omega]
          exact hb2
        · rw [show k + (c + 1) = (k + 1) + c by omega]
          exact hc2
        · intro d hd1 hd2
          match d with
          | d' + 1 =>
            rw [show k + (d' + 1) = (k + 1) + d' by omega]
            exact hpre d' (by omega)
        · intro d hd1 hd2
          match d with
          | d' + 1 =>
            rw [show k + (d' + 1) = (k + 1) + d' by omega]
            exact hgap d' (by omega) (by omega)
      | j' + 1 =>
        simp only [List.getElem?_cons_succ] at hx hy hz
        obtain ⟨a, b, c, hab, hbc, ha1, hb1, hc1, ha2, hb2, hc2, hg1, hg2⟩ :=
          filterIdxFrom_triple p (k+1) vs j' x y z hx hy hz
        refine ⟨a + 1, b + 1, c + 1, by omega, by omega, by simpa using ha1,
          by simpa using hb1, by simpa using hc1, ?_, ?_, ?_, ?_, ?_⟩
        · rw [show k + (a + 1) = (k + 1) + a by omega]
          exact ha2
        · rw [show k + (b + 1) = (k + 1) + b by omega]
          exact hb2
        · rw [show k + (c + 1) = (k + 1) + c by omega]
          exact hc2
        · intro d hd1 hd2
          match d with
          | d' + 1 =>
            rw [show k + (d' + 1) = (k + 1) + d' by omega]
            exact hg1 d' (by omega) (by omega)
        · intro d hd1 hd2
          match d with
          | d' + 1 =>
            rw [show k + (d' + 1) = (k + 1) + d' by omega]
            exact hg2 d' (by omega) (by omega)
    · rw [if_neg hp] at hx hy hz
      obtain ⟨a, b, c, hab, hbc, ha1, hb1, hc1, ha2, hb2, hc2, hg1, hg2⟩ :=
        filterIdxFrom_triple p (k+1) vs j x y z hx hy hz
      refine ⟨a + 1, b + 1, c + 1, by omega, by omega, by simpa using ha1,
        by simpa using hb1, by simpa using hc1, ?_, ?_, ?_, ?_, ?_⟩
      · rw [show k + (a + 1) = (k + 1) + a by omega]
        exact ha2
      · rw [show k + (b + 1) = (k + 1) + b by omega]
        exact hb2
      · rw [show k + (c + 1) = (k + 1) + c by omega]
        exact hc2
      · intro d hd1 hd2
        match d with
        | d' + 1 =>
          rw [show k + (d' + 1) = (k + 1) + d' by omega]
          exact hg1 d' (by omega) (by omega)
      · intro d hd1 hd2
        match d with
        | d' + 1 =>
          rw [show k + (d' + 1) = (k + 1) + d' by omega]
          exact hg2 d' (by omega) (by omega)

lemma elim_true_exists {o : Option Node} {f : Node → Bool} (h : o.elim false f = true) :
    ∃ v, o = some v ∧ f v = true := by
  cases o with
  | none => simp at h
  | some v => exact ⟨v, rfl, by simpa using h⟩

lemma discard_cases {l : List Node} {i : Nat} (h : specTrimDiscard l i = true) :
    (i = 0 ∧ l.head?.elim false isWsText = true) ∨
    (i = l.length - 1 ∧ l.getLast?.elim false isWsText = true) ∨
    (1 ≤ i ∧ l[i-1]?.elim false isElementOrComment = true ∧
      l[i]?.elim false isWsText = true ∧ l[i+1]?.elim false isElementOrComment = true) := by
  rw [specTrimDiscard] at h
  simp only [Bool.or_eq_true, Bool.and_eq_true, beq_iff_eq, decide_eq_true_eq] at h
  rcases h with (⟨h1, h2⟩ | ⟨h1, h2⟩) | ⟨⟨⟨h1, h2⟩, h3⟩, h4⟩
  · exact Or.inl ⟨h1, h2⟩
  · exact Or.inr (Or.inl ⟨h1, h2⟩)
  · exact Or.inr (Or.inr ⟨h1, h2, h3, h4⟩)

lemma discard_of_mid {l : List Node} {i : Nat} (h1 : 1 ≤ i)
    (h2 : l[i-1]?.elim false isElementOrComment = true)
    (h3 : l[i]?.elim false isWsText = true)
    (h4 : l[i+1]?.elim false isElementOrComment = true) :
    specTrimDiscard l i = true := by
  rw [specTrimDiscard]
  simp only [Bool.or_eq_true, Bool.and_eq_true, beq_iff_eq, decide_eq_true_eq]
  exact Or.inr ⟨⟨⟨h1, h2⟩, h3⟩, h4⟩

lemma ws_of_specTrimDiscard {l : List Node} {i : Nat} (h : specTrimDiscard l i = true) :
    l[i]?.elim false isWsText = true := by
  rcases discard_cases h with ⟨h1, h2⟩ | ⟨h1, h2⟩ | ⟨_, _, h3, _⟩
  · rw [List.head?_eq_getElem?] at h2
    rw [h1]
    exact h2
  · rw [List.getLast?_eq_getElem?] at h2
    rw [h1]
    exact h2
  · exact h3

/-- A node selected for removal is never an Element or Comment node. -/
lemma not_elementOrComment_of_discard {l : List Node} {i : Nat} {v : Node}
    (h : specTrimDiscard l i = true) (hv : l[i]? = some v) :
    isElementOrComment v = false := by
  have hws := ws_of_specTrimDiscard h
  rw [hv] at hws
  simp only [Option.elim] at hws
  cases v <;> simp_all [isWsText, isElementOrComment]

lemma keep_iff {l : List Node} {i : Nat} :
    ((fun i => !specTrimDiscard l i) i = true) ↔ specTrimDiscard l i = false := by
  simp

lemma specTrim_head_not_ws {l : List Node}
    (h01 : (l[0]?.elim false isWsText && l[1]?.elim false isWsText) = false)
    {x : Node} (hx : (specTrim l)[0]? = some x) : isWsText x = false := by
  obtain ⟨a, ha1, ha2, ha3⟩ := filterIdxFrom_head _ 0 l x hx
  simp only [Nat.zero_add] at ha2 ha3
  rw [keep_iff] at ha2
  match a with
  | 0 =>
    rw [specTrimDiscard] at ha2
    simp only [Bool.or_eq_false_iff, Bool.and_eq_false_iff] at ha2
    have := ha2.1.1
    rcases this with hbad | hhd
    · simp at hbad
    · rw [List.head?_eq_getElem?, ha1] at hhd
      simpa using hhd
  | 1 =>
    have h0 : specTrimDiscard l 0 = true := by
      have := ha3 0 (by omega)
      simpa using this
    have hws0 := ws_of_specTrimDiscard h0
    rw [Bool.and_eq_false_iff] at h01
    rcases h01 with h01 | h01
    · rw [hws0] at h01
      simp at h01
    · rw [ha1] at h01
      simpa using h01
  | a' + 2 =>
    have h0 : specTrimDiscard l 0 = true := by
      have := ha3 0 (by omega)
      simpa using this
    have h1 : specTrimDiscard l 1 = true := by
      have := ha3 1 (by omega)
      simpa using this
    have hws0 := ws_of_specTrimDiscard h0
    have hws1 := ws_of_specTrimDiscard h1
    rw [hws0, hws1] at h01
    simp at h01

lemma specTrim_getLast_not_ws {l : List Node}
    (hl : (decide (2 ≤ l.length) && l[l.length-2]?.elim false isWsText &&
      l[l.length-1]?.elim false isWsText) = false)
    {x : Node} (hx : (specTrim l).getLast? = some x) : isWsText x = false := by
  have hne : specTrim l ≠ [] := by
    intro he
    rw [he] at hx
    simp at hx
  have hOpos : 1 ≤ (specTrim l).length := List.length_pos.mpr hne
  rw [List.getLast?_eq_getElem?] at hx
  have hnone : (specTrim l)[((specTrim l).length - 1) + 1]? = none :=
    List.getElem?_eq_none (by omega)
  obtain ⟨a, ha1, ha2, ha3⟩ := filterIdxFrom_last _ 0 l _ x hx hnone
  simp only [Nat.zero_add] at ha2 ha3
  rw [keep_iff] at ha2
  have haN : a < l.length := by
    by_contra hcon
    rw [List.getElem?_eq_none (by omega)] at ha1
    simp at ha1
  by_cases hEdge : a = l.length - 1
  · rw [hEdge, specTrimDiscard] at ha2
    simp only [Bool.or_eq_false_iff, Bool.and_eq_false_iff] at ha2
    have := ha2.1.2
    rcases this with hbad | hlast
    · simp at hbad
    · rw [List.getLast?_eq_getElem?] at hlast
      rw [hEdge] at ha1
      rw [ha1] at hlast
      simpa using hlast
  · have haN1 : a < l.length - 1 := by omega
    have hdN1 : specTrimDiscard l (l.length - 1) = true := by
      have := ha3 (l.length - 1) (by omega) (by omega)
      simpa using this
    have hwsN1 := ws_of_specTrimDiscard hdN1
    have hn2 : 2 ≤ l.length := by omega
    rw [decide_eq_true hn2, Bool.true_and, Bool.and_eq_false_iff] at hl
    rcases hl with hl | hl
    · -- `l[n-2]` is not whitespace text
      by_cases hA : a = l.length - 2
      · rw [hA] at ha1
        rw [ha1] at hl
        simpa using hl
      · have hdN2 : specTrimDiscard l (l.length - 2) = true := by
          have := ha3 (l.length - 2) (by omega) (by omega)
          simpa using this
        have hwsN2 := ws_of_specTrimDiscard hdN2
        rw [hwsN2] at hl
        simp at hl
    · rw [hwsN1] at hl
      simp at hl

lemma specTrim_no_window (l : List Node) (j : Nat) :
    windowBad (specTrim l) j = false := by
  by_contra hcon
  rw [Bool.not_eq_false, windowBad] at hcon
  simp only [Bool.and_eq_true] at hcon
  obtain ⟨⟨hX, hY⟩, hZ⟩ := hcon
  obtain ⟨x, hx, hxEC⟩ := elim_true_exists hX
  obtain ⟨y, hy, hyWs⟩ := elim_true_exists hY
  obtain ⟨z, hz, hzEC⟩ := elim_true_exists hZ
  obtain ⟨a, b, c, hab, hbc, ha1, hb1, hc1, ha2, hb2, hc2, hg1, hg2⟩ :=
    filterIdxFrom_triple _ 0 l j x y z hx hy hz
  simp only [Nat.zero_add] at ha2 hb2 hc2 hg1 hg2
  rw [keep_iff] at ha2 hb2 hc2
  have hbN : b < l.length := by
    by_contra hcon2
    rw [List.getElem?_eq_none (by omega)] at hb1
    simp at hb1
  have hcN : c < l.length := by
    by_contra hcon2
    rw [List.getElem?_eq_none (by omega)] at hc1
    simp at hc1
  -- First: the kept indices around `y` are exactly its list neighbours.
  have hba : b = a + 1 := by
    by_contra hne
    have hgapd : specTrimDiscard l (b - 1) = true := by
      have := hg1 (b - 1) (by omega) (by omega)
      simpa using this
    rcases discard_cases hgapd with ⟨h1, _⟩ | ⟨h1, _⟩ | ⟨_, _, _, h4⟩
    · omega
    · omega
    · rw [show b - 1 + 1 = b by omega, hb1] at h4
      simp only [Option.elim] at h4
      cases y <;> simp_all [isWsText, isElementOrComment]
  have hcb : c = b + 1 := by
    by_contra hne
    have hgapd : specTrimDiscard l (b + 1) = true := by
      have := hg2 (b + 1) (by omega) (by omega)
      simpa using this
    rcases discard_cases hgapd with ⟨h1, _⟩ | ⟨h1, _⟩ | ⟨_, h2, _, _⟩
    · omega
    · omega
    · rw [show b + 1 - 1 = b by omega, hb1] at h2
      simp only [Option.elim] at h2
      cases y <;> simp_all [isWsText, isElementOrComment]
  -- Hence the window predicate fires on `l` at `b`, so `b` was discarded.
  have : specTrimDiscard l b = true := by
    apply discard_of_mid (by omega)
    · rw [show b - 1 = a by omega, ha1]
      simpa using hxEC
    · rw [hb1]
      simpa using hyWs
    · rw [show b + 1 = c by omega, hc1]
      simpa using hzEC
  rw [this] at hb2
  simp at hb2

/-- Under the stated end conditions, re-filtering the spec-side output is the
identity. -/
lemma specTrim_idem (l : List Node)
    (h01 : (l[0]?.elim false isWsText && l[1]?.elim false isWsText) = false)
    (hl : (decide (2 ≤ l.length) && l[l.length-2]?.elim false isWsText &&
      l[l.length-1]?.elim false isWsText) = false) :
    specTrim (specTrim l) = specTrim l := by
  conv_lhs => rw [specTrim]
  apply filterIdxFrom_eq_self
  intro j hj
  simp only [Nat.zero_add]
  rw [keep_iff]
  by_contra hcon
  rw [Bool.not_eq_false] at hcon
  rcases discard_cases hcon with ⟨h1, h2⟩ | ⟨h1, h2⟩ | ⟨h1, h2, h3, h4⟩
  · obtain ⟨v, hv, hvws⟩ := elim_true_exists h2
    rw [List.head?_eq_getElem?] at hv
    rw [specTrim_head_not_ws h01 hv] at hvws
    simp at hvws
  · obtain ⟨v, hv, hvws⟩ := elim_true_exists h2
    rw [specTrim_getLast_not_ws hl hv] at hvws
    simp at hvws
  · have : windowBad (specTrim l) (j - 1) = true := by
      rw [windowBad, show j - 1 + 1 = j by omega, show j - 1 + 2 = j + 1 by omega]
      simp only [Bool.and_eq_true]
      exact ⟨⟨h2, h3⟩, h4⟩
    rw [specTrim_no_window] at this
    simp at this

/-- **C4** (counterexample): re-running the whitespace-trim stage on a list it
has already produced is not always the identity.  On `[" ", " ", <div>]` the
first run only removes the leading text (the second text is not leading, not
trailing, and not between Element/Comment neighbours), so the output
`[" ", <div>]` again starts with removable whitespace and the second run
removes it. -/
theorem c4_trim_not_idempotent_counterexample :
    trimWhitespace (trimWhitespace c4List) ≠ trimWhitespace c4List := by
  intro h
  have h1 : (trimWhitespace (trimWhitespace c4List)).length = 1 := by decide
  have h2 : (trimWhitespace c4List).length = 2 := by decide
  rw [h, h2] at h1
  exact absurd h1 (by decide)

/-- **C4** (amended): the whitespace-trim stage is idempotent on every sibling
list of length at most 128 whose first two nodes are not both whitespace-only
text and whose last two nodes are not both whitespace-only text.  (The
counterexample shows idempotence fails when two whitespace texts open or close
the list; the 128 bound comes from the discard-mask width, claim C1.) -/
theorem c4_trim_idempotent (l : List Node) (h128 : l.length ≤ 128)
    (h01 : (l[0]?.elim false isWsText && l[1]?.elim false isWsText) = false)
    (hl : (decide (2 ≤ l.length) && l[l.length-2]?.elim false isWsText &&
      l[l.length-1]?.elim false isWsText) = false) :
    trimWhitespace (trimWhitespace l) = trimWhitespace l := by
  have e1 := trimWhitespace_eq_specTrim l h128
  have hlen : (specTrim l).length ≤ l.length := filterIdxFrom_length_le _ 0 l
  have e2 := trimWhitespace_eq_specTrim (specTrim l) (by omega)
  rw [e1, e2, specTrim_idem l h01 hl]

/-- Witness for `c4_trim_idempotent` at a concrete input. -/
theorem c4_trim_idempotent_witness :
    c4Example.length ≤ 128 ∧
    (c4Example[0]?.elim false isWsText && c4Example[1]?.elim false isWsText) = false ∧
    (decide (2 ≤ c4Example.length) && c4Example[c4Example.length-2]?.elim false isWsText &&
      c4Example[c4Example.length-1]?.elim false isWsText) = false ∧
    trimWhitespace (trimWhitespace c4Example) = trimWhitespace c4Example :=
  ⟨by decide, by decide, by decide,
    c4_trim_idempotent c4Example (by decide) (by decide) (by decide)⟩

/-! ### Step lemmas for the conditional fold -/

lemma ConditionalNodeSequence.eta (s : ConditionalNodeSequence) :
    ConditionalNodeSequence.mk s.if_node s.else_if_nodes s.else_node = s := by
  cases s
  rfl

lemma fold_vif_step (tag : String) (attrs : List AttributeOrBinding)
    (d : VueDirectives) (ch : List Node) (ts : Nat) (k : ElementKind)
    (ph : PatchHints) (c : Expr) (hv : d.v_if = some c)
    (seq : Option ConditionalNodeSequence) (rest : List Node) :
    foldConditionals seq (Node.element (.mk ⟨tag, attrs, some d⟩ ch ts k ph) :: rest) =
      finishSeq seq ++
        foldConditionals (some (.mk
          (.mk c (optimize_v_if_plus_v_for
            ((ElementNode.mk ⟨tag, attrs, some d⟩ ch ts k ph).setDirectives
              (some { d with v_if := none }))))
          [] none)) rest := by
  simp [foldConditionals, hv]

lemma fold_elif_step_open (tag : String) (attrs : List AttributeOrBinding)
    (d : VueDirectives) (ch : List Node) (ts : Nat) (k : ElementKind)
    (ph : PatchHints) (c : Expr) (hvif : d.v_if = none) (hveif : d.v_else_if = some c)
    (s : ConditionalNodeSequence) (rest : List Node) :
    foldConditionals (some s) (Node.element (.mk ⟨tag, attrs, some d⟩ ch ts k ph) :: rest) =
      foldConditionals (some (.mk s.if_node
        (s.else_if_nodes ++ [.mk c (optimize_v_if_plus_v_for
          ((ElementNode.mk ⟨tag, attrs, some d⟩ ch ts k ph).setDirectives
            (some { d with v_else_if := none })))])
        s.else_node)) rest := by
  simp [foldConditionals, hvif, hveif]

lemma fold_elif_step_orphan (tag : String) (attrs : List AttributeOrBinding)
    (d : VueDirectives) (ch : List Node) (ts : Nat) (k : ElementKind)
    (ph : PatchHints) (c : Expr) (hvif : d.v_if = none) (hveif : d.v_else_if = some c)
    (rest : List Node) :
    foldConditionals none (Node.element (.mk ⟨tag, attrs, some d⟩ ch ts k ph) :: rest) =
      Node.element ((ElementNode.mk ⟨tag, attrs, some d⟩ ch ts k ph).setDirectives
        (some { d with v_else_if := none })) :: foldConditionals none rest := by
  simp [foldConditionals, hvif, hveif]

lemma fold_else_step_open (tag : String) (attrs : List AttributeOrBinding)
    (d : VueDirectives) (ch : List Node) (ts : Nat) (k : ElementKind)
    (ph : PatchHints) (hvif : d.v_if = none) (hveif : d.v_else_if = none)
    (helse : d.v_else = some ()) (s : ConditionalNodeSequence) (rest : List Node) :
    foldConditionals (some s) (Node.element (.mk ⟨tag, attrs, some d⟩ ch ts k ph) :: rest) =
      Node.conditionalSeq (.mk s.if_node s.else_if_nodes
        (some (optimize_v_if_plus_v_for (ElementNode.mk ⟨tag, attrs, some d⟩ ch ts k ph)))) ::
        foldConditionals none rest := by
  simp [foldConditionals, hvif, hveif, helse, finishSeq]

lemma fold_else_step_orphan (tag : String) (attrs : List AttributeOrBinding)
    (d : VueDirectives) (ch : List Node) (ts : Nat) (k : ElementKind)
    (ph : PatchHints) (hvif : d.v_if = none) (hveif : d.v_else_if = none)
    (helse : d.v_else = some ()) (rest : List Node) :
    foldConditionals none (Node.element (.mk ⟨tag, attrs, some d⟩ ch ts k ph) :: rest) =
      Node.element (.mk ⟨tag, attrs, some d⟩ ch ts k ph) :: foldConditionals none rest := by
  simp [foldConditionals, hvif, hveif, helse]

lemma foldConditionals_elif_run (elifs : List ElementNode)
    (h : ∀ e ∈ elifs, isElseIfOnly e = true) (s : ConditionalNodeSequence)
    (tail : List Node) :
    foldConditionals (some s) (elifs.map Node.element ++ tail) =
      foldConditionals (some (.mk s.if_node (s.else_if_nodes ++ elifs.map elseIfBranch)
        s.else_node)) tail := by
  induction elifs generalizing s with
  | nil => simp [ConditionalNodeSequence.eta]
  | cons e es ih =>
    have he : isElseIfOnly e = true := h e (by simp)
    rcases e with ⟨⟨tag, attrs, dirs⟩, ch, ts, k, ph⟩
    rcases dirs with _ | d
    · simp [isElseIfOnly] at he
    · simp only [isElseIfOnly, ElementNode.starting_tag_mk, Bool.and_eq_true,
        decide_eq_true_eq, Option.isSome_iff_exists] at he
      obtain ⟨hvif, c, hveif⟩ := he
      simp only [List.map_cons, List.cons_append]
      rw [fold_elif_step_open tag attrs d ch ts k ph c hvif hveif s (es.map Node.element ++ tail)]
      rw [ih (fun e' he' => h e' (by simp [he']))]
      simp only [ConditionalNodeSequence.if_node_mk, ConditionalNodeSequence.else_if_nodes_mk,
        ConditionalNodeSequence.else_node_mk, List.append_assoc, List.singleton_append,
        List.map_cons]
      congr 2
      rw [elseIfBranch]
      simp [hveif]

/-- **C3** (counterexample): an orphaned else-if element does not pass through
the conditional fold *unmodified*: the fold `take()`s its `v-else-if`
directive, so the element in the output no longer carries it. -/
theorem c3_orphan_unmodified_counterexample :
    foldConditionals none [Node.element c3Orphan] ≠ [Node.element c3Orphan] := by
  intro h
  have h2 := congrArg vElseIfOfHead h
  revert h2
  decide

/-- **C3** (amended): an else-if or else element met while no conditional
sequence is open is non-fatal and passes through to the output in place as a
plain element: an orphaned else-if passes through with its else-if directive
consumed (stripped), while an orphaned else passes through unmodified (its
`v-else` marker is not taken). -/
theorem c3_orphan_pass_through :
    (∀ (el : ElementNode) (d : VueDirectives) (c : Expr) (rest : List Node),
      el.starting_tag.directives = some d → d.v_if = none → d.v_else_if = some c →
      foldConditionals none (Node.element el :: rest) =
        Node.element (el.setDirectives (some { d with v_else_if := none })) ::
          foldConditionals none rest) ∧
    (∀ (el : ElementNode) (d : VueDirectives) (rest : List Node),
      el.starting_tag.directives = some d → d.v_if = none → d.v_else_if = none →
      d.v_else = some () →
      foldConditionals none (Node.element el :: rest) =
        Node.element el :: foldConditionals none rest) := by
  constructor
  · intro el d c rest hd hvif hveif
    rcases el with ⟨⟨tag, attrs, dirs⟩, ch, ts, k, ph⟩
    simp only [ElementNode.starting_tag_mk] at hd
    subst hd
    exact fold_elif_step_orphan tag attrs d ch ts k ph c hvif hveif rest
  · intro el d rest hd hvif hveif helse
    rcases el with ⟨⟨tag, attrs, dirs⟩, ch, ts, k, ph⟩
    simp only [ElementNode.starting_tag_mk] at hd
    subst hd
    exact fold_else_step_orphan tag attrs d ch ts k ph hvif hveif helse rest

/-- Witness for `c3_orphan_pass_through` at a concrete orphaned else-if. -/
theorem c3_orphan_pass_through_witness :
    c3Orphan.starting_tag.directives = some c3D ∧ c3D.v_if = none ∧
    c3D.v_else_if = some (Expr.raw "foo") ∧
    foldConditionals none [Node.element c3Orphan] =
      Node.element (c3Orphan.setDirectives (some { c3D with v_else_if := none })) ::
        foldConditionals none [] :=
  ⟨rfl, rfl, rfl, c3_orphan_pass_through.1 c3Orphan c3D (Expr.raw "foo") [] rfl rfl rfl⟩

/-- **C5**: conditional folding. A maximal run `v-if, v-else-if*, v-else`
folds to exactly one `ConditionalNodeSequence` with the else-if branches in
source order and an else branch present iff an else element existed; a new
`v-if` closes any prior open sequence before opening its own; an else ends the
chain; a comment while a sequence is open is absorbed; any other node closes
the open sequence and passes through; the end of the list force-closes a
remaining open sequence. -/
theorem c5_conditional_folding :
    (∀ (ifEl : ElementNode) (dIf : VueDirectives) (cIf : Expr)
        (elifs : List ElementNode) (elseEl : ElementNode) (dE : VueDirectives)
        (rest : List Node),
      ifEl.starting_tag.directives = some dIf → dIf.v_if = some cIf →
      (∀ e ∈ elifs, isElseIfOnly e = true) →
      elseEl.starting_tag.directives = some dE → dE.v_if = none →
      dE.v_else_if = none → dE.v_else = some () →
      foldConditionals none
          (Node.element ifEl :: elifs.map Node.element ++ Node.element elseEl :: rest) =
        Node.conditionalSeq (.mk
          (.mk cIf (optimize_v_if_plus_v_for
            (ifEl.setDirectives (some { dIf with v_if := none }))))
          (elifs.map elseIfBranch)
          (some (optimize_v_if_plus_v_for elseEl))) :: foldConditionals none rest) ∧
    (∀ (ifEl : ElementNode) (dIf : VueDirectives) (cIf : Expr)
        (elifs : List ElementNode),
      ifEl.starting_tag.directives = some dIf → dIf.v_if = some cIf →
      (∀ e ∈ elifs, isElseIfOnly e = true) →
      foldConditionals none (Node.element ifEl :: elifs.map Node.element) =
        [Node.conditionalSeq (.mk
          (.mk cIf (optimize_v_if_plus_v_for
            (ifEl.setDirectives (some { dIf with v_if := none }))))
          (elifs.map elseIfBranch) none)]) ∧
    (∀ (s : ConditionalNodeSequence) (ifEl : ElementNode) (dIf : VueDirectives)
        (cIf : Expr) (rest : List Node),
      ifEl.starting_tag.directives = some dIf → dIf.v_if = some cIf →
      foldConditionals (some s) (Node.element ifEl :: rest) =
        Node.conditionalSeq s :: foldConditionals (some (.mk
          (.mk cIf (optimize_v_if_plus_v_for
            (ifEl.setDirectives (some { dIf with v_if := none }))))
          [] none)) rest) ∧
    (∀ (s : ConditionalNodeSequence) (c : String) (rest : List Node),
      foldConditionals (some s) (Node.comment c :: rest) =
        foldConditionals (some s) rest) ∧
    (∀ (s : ConditionalNodeSequence) (x : Node) (rest : List Node),
      isPlainNonElement x = true →
      foldConditionals (some s) (x :: rest) =
        Node.conditionalSeq s :: x :: foldConditionals none rest) ∧
    (∀ (s : ConditionalNodeSequence) (el : ElementNode) (rest : List Node),
      noCondDirectives el = true →
      foldConditionals (some s) (Node.element el :: rest) =
        Node.conditionalSeq s :: Node.element el :: foldConditionals none rest) ∧
    (∀ s : ConditionalNodeSequence, foldConditionals (some s) [] = [Node.conditionalSeq s]) := by
  refine ⟨?_, ?_, ?_, ?_, ?_, ?_, ?_⟩
  · intro ifEl dIf cIf elifs elseEl dE rest hdIf hvIf hElifs hdE hE1 hE2 hE3
    rcases ifEl with ⟨⟨tag, attrs, dirs⟩, ch, ts, k, ph⟩
    simp only [ElementNode.starting_tag_mk] at hdIf
    subst hdIf
    rw [List.cons_append, fold_vif_step tag attrs dIf ch ts k ph cIf hvIf none _]
    rw [foldConditionals_elif_run elifs hElifs]
    rcases elseEl with ⟨⟨tagE, attrsE, dirsE⟩, chE, tsE, kE, phE⟩
    simp only [ElementNode.starting_tag_mk] at hdE
    subst hdE
    rw [fold_else_step_open tagE attrsE dE chE tsE kE phE hE1 hE2 hE3]
    simp [finishSeq]
  · intro ifEl dIf cIf elifs hdIf hvIf hElifs
    rcases ifEl with ⟨⟨tag, attrs, dirs⟩, ch, ts, k, ph⟩
    simp only [ElementNode.starting_tag_mk] at hdIf
    subst hdIf
    rw [fold_vif_step tag attrs dIf ch ts k ph cIf hvIf none (elifs.map Node.element),
      show List.map Node.element elifs = List.map Node.element elifs ++ [] from
        (List.append_nil _).symm,
      foldConditionals_elif_run elifs hElifs]
    simp [foldConditionals, finishSeq]
  · intro s ifEl dIf cIf rest hdIf hvIf
    rcases ifEl with ⟨⟨tag, attrs, dirs⟩, ch, ts, k, ph⟩
    simp only [ElementNode.starting_tag_mk] at hdIf
    subst hdIf
    rw [fold_vif_step tag attrs dIf ch ts k ph cIf hvIf (some s) rest]
    simp [finishSeq]
  · intro s c rest
    simp [foldConditionals]
  · intro s x rest hx
    match x with
    | .text t => simp [foldConditionals, finishSeq]
    | .interpolation i => simp [foldConditionals, finishSeq]
    | .conditionalSeq cs => simp [foldConditionals, finishSeq]
    | .element e => simp [isPlainNonElement] at hx
    | .comment c => simp [isPlainNonElement] at hx
  · intro s el rest hel
    rcases el with ⟨⟨tag, attrs, dirs⟩, ch, ts, k, ph⟩
    rcases dirs with _ | d
    · simp [foldConditionals, finishSeq]
    · simp only [noCondDirectives, ElementNode.starting_tag_mk, Bool.and_eq_true,
        decide_eq_true_eq] at hel
      obtain ⟨⟨h1, h2⟩, h3⟩ := hel
      simp [foldConditionals, h1, h2, h3, finishSeq]
  · intro s
    simp [foldConditionals, finishSeq]

/-- Witness for `c5_conditional_folding` on a concrete `v-if`/`v-else-if`/
`v-else` chain followed by a text node. -/
theorem c5_conditional_folding_witness :
    (∀ e ∈ [c5Elif], isElseIfOnly e = true) ∧
    foldConditionals none
        (Node.element c5If :: [c5Elif].map Node.element ++
          Node.element c5Else :: [Node.text "t"]) =
      Node.conditionalSeq (.mk
        (.mk (Expr.raw "a") (optimize_v_if_plus_v_for
          (c5If.setDirectives (some { c5DIf with v_if := none }))))
        ([c5Elif].map elseIfBranch)
        (some (optimize_v_if_plus_v_for c5Else))) :: foldConditionals none [Node.text "t"] :=
  ⟨by decide, c5_conditional_folding.1 c5If c5DIf (Expr.raw "a") [c5Elif] c5Else c5DE
    [Node.text "t"] rfl rfl (by decide) rfl rfl rfl rfl⟩

/-- **C8**: the v-if/v-for collapse applies only to a `template`-tagged
wrapper with exactly one Element child; when both wrapper and child declare a
loop directive nothing changes; when only the wrapper declares one, the loop
directive is moved onto the child; in every applicable case the wrapper is
discarded and the child promoted in its place. -/
theorem c8_collapse_behaviour :
    (∀ p : ElementNode, p.children.length ≠ 1 → optimize_v_if_plus_v_for p = p) ∧
    (∀ p : ElementNode, p.starting_tag.tag_name ≠ "template" →
      optimize_v_if_plus_v_for p = p) ∧
    (∀ (p : ElementNode) (x : Node), p.children = [x] → isElementNode x = false →
      optimize_v_if_plus_v_for p = p) ∧
    (∀ (p child : ElementNode),
      p.starting_tag.tag_name = "template" → p.children = [Node.element child] →
      hasVFor p = true → hasVFor child = true → optimize_v_if_plus_v_for p = p) ∧
    (∀ (p child : ElementNode),
      p.starting_tag.tag_name = "template" → p.children = [Node.element child] →
      hasVFor p = true → hasVFor child = false →
      optimize_v_if_plus_v_for p =
        child.setDirectives (some { child.starting_tag.directives.getD {} with
          v_for := (p.starting_tag.directives.getD {}).v_for })) ∧
    (∀ (p child : ElementNode),
      p.starting_tag.tag_name = "template" → p.children = [Node.element child] →
      hasVFor p = false → optimize_v_if_plus_v_for p = child) := by
  refine ⟨?_, ?_, ?_, ?_, ?_, ?_⟩
  · intro p hlen
    rw [optimize_v_if_plus_v_for, if_pos]
    simp [hlen]
  · intro p htag
    rw [optimize_v_if_plus_v_for, if_pos]
    simp [htag]
  · intro p x hch hx
    rw [optimize_v_if_plus_v_for]
    by_cases hg : (p.children.length != 1 || p.starting_tag.tag_name != "template") = true
    · rw [if_pos hg]
    · rw [if_neg hg, hch]
      match x, hx with
      | .text t, _ => rfl
      | .interpolation i, _ => rfl
      | .comment c, _ => rfl
      | .conditionalSeq cs, _ => rfl
  · intro p child htag hch hp hc
    rw [optimize_v_if_plus_v_for, if_neg (by simp [hch, htag]), hch]
    simp [hp, hc]
  · intro p child htag hch hp hc
    rw [optimize_v_if_plus_v_for, if_neg (by simp [hch, htag]), hch]
    simp [hp, hc]
  · intro p child htag hch hp
    rw [optimize_v_if_plus_v_for, if_neg (by simp [hch, htag]), hch]
    simp [hp]

/-- Witness for `c8_collapse_behaviour`: a template wrapper carrying the only
`v-for` collapses onto its single element child. -/
theorem c8_collapse_behaviour_witness :
    c8Wrapper.starting_tag.tag_name = "template" ∧
    c8Wrapper.children = [Node.element c8Child] ∧
    hasVFor c8Wrapper = true ∧ hasVFor c8Child = false ∧
    optimize_v_if_plus_v_for c8Wrapper =
      c8Child.setDirectives (some { c8Child.starting_tag.directives.getD {} with
        v_for := (c8Wrapper.starting_tag.directives.getD {}).v_for }) :=
  ⟨rfl, rfl, by decide, by decide,
    c8_collapse_behaviour.2.2.2.2.1 c8Wrapper c8Child rfl rfl (by decide) (by decide)⟩

/-- **C10**: when the v-if/v-for collapse applies, every directive remaining
on the wrapper other than the transferred loop directive (slot, memo, show,
...) is discarded together with the wrapper rather than moved onto the child:
in the transfer case the promoted child's directives are built from the
child's own directives plus the wrapper's `v-for` only, and in the
no-loop-on-wrapper case the wrapper (with all its directives) is dropped
entirely. -/
theorem c10_wrapper_directives_discarded :
    (∀ (p child : ElementNode) (pd : VueDirectives),
      p.starting_tag.tag_name = "template" → p.children = [Node.element child] →
      p.starting_tag.directives = some pd → pd.v_for.isSome = true →
      hasVFor child = false →
      (optimize_v_if_plus_v_for p).starting_tag.directives =
          some { child.starting_tag.directives.getD {} with v_for := pd.v_for } ∧
        ((optimize_v_if_plus_v_for p).starting_tag.directives.getD {}).v_slot =
          (child.starting_tag.directives.getD {}).v_slot ∧
        ((optimize_v_if_plus_v_for p).starting_tag.directives.getD {}).v_memo =
          (child.starting_tag.directives.getD {}).v_memo ∧
        ((optimize_v_if_plus_v_for p).starting_tag.directives.getD {}).v_show =
          (child.starting_tag.directives.getD {}).v_show) ∧
    (∀ (p child : ElementNode) (pd : VueDirectives),
      p.starting_tag.tag_name = "template" → p.children = [Node.element child] →
      p.starting_tag.directives = some pd → pd.v_for = none →
      optimize_v_if_plus_v_for p = child) := by
  constructor
  · intro p child pd htag hch hpd hvf hc
    have hp : hasVFor p = true := by
      rw [hasVFor, hpd]
      simpa using hvf
    have hres : optimize_v_if_plus_v_for p =
        child.setDirectives (some { child.starting_tag.directives.getD {} with
          v_for := (p.starting_tag.directives.getD {}).v_for }) := by
      rw [optimize_v_if_plus_v_for, if_neg (by simp [hch, htag]), hch]
      simp [hp, hc]
    rw [hres, hpd]
    rcases child with ⟨⟨tagC, attrsC, dirsC⟩, chC, tsC, kC, phC⟩
    simp [ElementNode.setDirectives]
  · intro p child pd htag hch hpd hvf
    have hp : hasVFor p = false := by
      rw [hasVFor, hpd]
      simp [hvf]
    rw [optimize_v_if_plus_v_for, if_neg (by simp [hch, htag]), hch]
    simp [hp]

/-- Witness for `c10_wrapper_directives_discarded` at a wrapper that carries
slot and show directives besides its `v-for`. -/
theorem c10_wrapper_directives_discarded_witness :
    c10PD.v_for.isSome = true ∧ hasVFor c10Child = false ∧
    (optimize_v_if_plus_v_for c10Wrapper).starting_tag.directives =
      some { c10Child.starting_tag.directives.getD {} with v_for := c10PD.v_for } :=
  ⟨rfl, by decide,
    (c10_wrapper_directives_discarded.1 c10Wrapper c10Child c10PD rfl rfl rfl rfl
      (by decide)).1⟩

/-- **C9**: component resolution.  Against a declared local binding
`TestComponent` classified as a component, the tags `test-component` and
`TestComponent` both record the same `Resolved` ComponentBinding (a bare
reference to `TestComponent`); kebab-case names are normalized by splitting
on `'-'` and uppercasing each segment's first code point while non-kebab
names pass unchanged; an unmatched name records `Unresolved`; and resolving a
name already present in the component table is a no-op. -/
theorem c9_component_resolution :
    (∀ O : ExternalOracle,
      lookupComponent
          (maybe_resolve_component O 0
            (maybe_resolve_component O 0 c9Helper "test-component") "TestComponent")
          "test-component" =
        some (ComponentBinding.resolved (Expr.ident "TestComponent")) ∧
      lookupComponent
          (maybe_resolve_component O 0
            (maybe_resolve_component O 0 c9Helper "test-component") "TestComponent")
          "TestComponent" =
        some (ComponentBinding.resolved (Expr.ident "TestComponent"))) ∧
    searchedComponentName "test-component" = "TestComponent" ∧
    (∀ tag : String, tag.data.contains '-' = false → searchedComponentName tag = tag) ∧
    (∀ (O : ExternalOracle) (cs : Nat) (h : BindingsHelper) (tag : String),
      (h.components.find? fun p => p.1 == tag).isSome = true →
      maybe_resolve_component O cs h tag = h) ∧
    (∀ (O : ExternalOracle) (cs : Nat) (h : BindingsHelper) (tag : String),
      (h.components.find? fun p => p.1 == tag).isSome = false →
      (h.setup_bindings.find? fun b => b.1 == searchedComponentName tag) = none →
      lookupComponent (maybe_resolve_component O cs h tag) tag =
        some ComponentBinding.unresolved) := by
  refine ⟨?_, by decide, ?_, ?_, ?_⟩
  · intro O
    constructor <;> rfl
  · intro tag htag
    rw [searchedComponentName, if_neg]
    rw [htag]
    exact Bool.false_ne_true
  · intro O cs h tag hmem
    rw [maybe_resolve_component, if_pos hmem]
  · intro O cs h tag hmem hfind
    have h1 : (h.components.find? fun p => p.1 == tag) = none := by
      rcases hh : h.components.find? fun p => p.1 == tag with _ | v
      · exact hh
      · rw [hh] at hmem
        simp at hmem
    rw [maybe_resolve_component, if_neg (by simp [hmem])]
    simp only [hfind]
    simp [lookupComponent, List.find?_append, h1]

/-- Witness for `c9_component_resolution`'s conditional parts: the memoized
no-op on an already-present name, and an unmatched name recording
`Unresolved`. -/
theorem c9_component_resolution_witness :
    ((c9Helper.components.find? fun p => p.1 == "UnknownTag").isSome = false ∧
      (c9Helper.setup_bindings.find? fun b =>
        b.1 == searchedComponentName "UnknownTag") = none) ∧
    (∀ O : ExternalOracle,
      lookupComponent (maybe_resolve_component O 0 c9Helper "UnknownTag") "UnknownTag" =
        some ComponentBinding.unresolved) :=
  ⟨⟨by decide, by decide⟩, fun O =>
    c9_component_resolution.2.2.2.2 O 0 c9Helper "UnknownTag" (by decide) (by decide)⟩

/-! ### Scope-table invariants (C2) -/

lemma maybe_resolve_component_scopes (O : ExternalOracle) (cs : Nat)
    (h : BindingsHelper) (t : String) :
    (maybe_resolve_component O cs h t).template_scopes = h.template_scopes := by
  rw [maybe_resolve_component]
  by_cases hm : (h.components.find? fun p => p.1 == t).isSome = true
  · rw [if_pos hm]
  · rw [if_neg hm]
    rcases hf : h.setup_bindings.find? fun b => b.1 == searchedComponentName t with _ | found
    · simp only [hf]
    · simp only [hf]

lemma modify_append_singleton (f : TemplateScope → TemplateScope) :
    ∀ (old : List TemplateScope) (ns : TemplateScope),
      (old ++ [ns]).modify f old.length = old ++ [f ns]
  | [], ns => rfl
  | x :: old, ns => by
    simpa using modify_append_singleton f old ns

lemma scopeStage_not_carries (O : ExternalOracle) (h : BindingsHelper) (ps : Nat)
    (attrs : List AttributeOrBinding) (od : Option VueDirectives)
    (hc : carriesD od = false) :
    scopeStage O h ps attrs od = (od, ps, h) := by
  rcases od with _ | d
  · rfl
  · rw [carriesD] at hc
    rcases hvf : d.v_for with _ | vf
    · rcases hvs : d.v_slot with _ | vs
      · simp [scopeStage, hvf, hvs]
      · rw [hvf, hvs] at hc
        simp at hc
    · rw [hvf] at hc
      simp at hc

lemma scopeStage_carries_shape (O : ExternalOracle) (h : BindingsHelper) (ps : Nat)
    (attrs : List AttributeOrBinding) (od : Option VueDirectives)
    (hc : carriesD od = true) :
    ∃ (d2 : VueDirectives) (vars : List String),
      scopeStage O h ps attrs od =
        (some d2, h.template_scopes.length,
          { h with template_scopes := h.template_scopes ++ [⟨vars, ps⟩] }) := by
  rcases od with _ | d
  · rw [carriesD] at hc
    simp at hc
  · rcases hvf : d.v_for with _ | vf
    · rcases hvs : d.v_slot with _ | vs
      · rw [carriesD, hvf, hvs] at hc
        simp at hc
      · rcases hval : vs.value with _ | v
        · refine ⟨d, [], ?_⟩
          simp only [scopeStage, hvf, hvs, hval, Option.isSome_some, Option.isSome_none,
            Bool.false_or, if_pos]
          rcases vs with ⟨sn, value⟩
          simp only at hval
          subst hval
          rfl
        · refine ⟨d, O.collect_variables v, ?_⟩
          simp only [scopeStage, hvf, hvs, hval, Option.isSome_some, Option.isSome_none,
            Bool.false_or, if_pos]
          rcases vs with ⟨sn, value⟩
          simp only at hval
          subst hval
          simp only [collectInto, modify_append_singleton]
          rfl
    · rcases hvs : d.v_slot with _ | vs
      · refine ⟨{ d with v_for := some { vf with
            iterable := (O.transform_expr vf.iterable h.template_scopes.length).1,
            patch_flags :=
              if !(O.transform_expr vf.iterable h.template_scopes.length).2 then
                { vf.patch_flags with stableFragment := true }
              else if attrs.any fun attr => check_attribute_name attr "key" then
                { vf.patch_flags with keyedFragment := true }
              else
                { vf.patch_flags with unkeyedFragment := true } } },
          O.collect_variables vf.itervar, ?_⟩
        simp only [scopeStage, hvf, hvs, Option.isSome_some, Bool.true_or, if_pos]
        simp only [collectInto, modify_append_singleton]
        rfl
      · rcases hval : vs.value with _ | v
        · refine ⟨{ d with v_for := some { vf with
              iterable := (O.transform_expr vf.iterable h.template_scopes.length).1,
              patch_flags :=
                if !(O.transform_expr vf.iterable h.template_scopes.length).2 then
                  { vf.patch_flags with stableFragment := true }
                else if attrs.any fun attr => check_attribute_name attr "key" then
                  { vf.patch_flags with keyedFragment := true }
                else
                  { vf.patch_flags with unkeyedFragment := true } } },
            O.collect_variables vf.itervar, ?_⟩
          simp only [scopeStage, hvf, hvs, hval, Option.isSome_some, Bool.true_or, if_pos]
          rcases vs with ⟨sn, value⟩
          simp only at hval
          subst hval
          simp only [collectInto, modify_append_singleton]
          rfl
        · refine ⟨{ d with v_for := some { vf with
              iterable := (O.transform_expr vf.iterable h.template_scopes.length).1,
              patch_flags :=
                if !(O.transform_expr vf.iterable h.template_scopes.length).2 then
                  { vf.patch_flags with stableFragment := true }
                else if attrs.any fun attr => check_attribute_name attr "key" then
                  { vf.patch_flags with keyedFragment := true }
                else
                  { vf.patch_flags with unkeyedFragment := true } } },
            O.collect_variables vf.itervar ++ O.collect_variables v, ?_⟩
          simp only [scopeStage, hvf, hvs, hval, Option.isSome_some, Bool.true_or, if_pos]
          rcases vs with ⟨sn, value⟩
          simp only at hval
          subst hval
          simp only [collectInto, modify_append_singleton]
          simp [List.append_assoc]

lemma scopeStage_scopes_extend (O : ExternalOracle) (h : BindingsHelper) (ps : Nat)
    (attrs : List AttributeOrBinding) (od : Option VueDirectives) :
    h.template_scopes <+: (scopeStage O h ps attrs od).2.2.template_scopes := by
  by_cases hc : carriesD od = true
  · obtain ⟨d2, vars, heq⟩ := scopeStage_carries_shape O h ps attrs od hc
    rw [heq]
    exact ⟨[⟨vars, ps⟩], rfl⟩
  · rw [scopeStage_not_carries O h ps attrs od (by simpa using hc)]

lemma visitConditionals_scopes_mono (O : ExternalOracle) (fuel : Nat)
    (hE : ∀ (s : VisitState) (el : ElementNode),
      s.helper.template_scopes <+: (visitElementNode O fuel s el).2.helper.template_scopes) :
    ∀ (s : VisitState) (l : List Conditional),
      s.helper.template_scopes <+: (visitConditionals O fuel s l).2.helper.template_scopes
  | s, [] => by
    rw [visitConditionals]
  | s, c :: rest => by
    rw [visitConditionals]
    exact (hE s c.node).trans (visitConditionals_scopes_mono O fuel hE _ rest)

lemma visitNodes_scopes_mono (O : ExternalOracle) (fuel : Nat)
    (hN : ∀ (s : VisitState) (n : Node),
      s.helper.template_scopes <+: (visitNode O fuel s n).2.helper.template_scopes) :
    ∀ (s : VisitState) (l : List Node),
      s.helper.template_scopes <+: (visitNodes O fuel s l).2.helper.template_scopes
  | s, [] => by
    rw [visitNodes]
  | s, n :: rest => by
    rw [visitNodes]
    exact (hN s n).trans (visitNodes_scopes_mono O fuel hN _ rest)

lemma visitNodes_scopes_mono_state (O : ExternalOracle) (fuel : Nat)
    (hN : ∀ (s : VisitState) (n : Node),
      s.helper.template_scopes <+: (visitNode O fuel s n).2.helper.template_scopes)
    (hel : BindingsHelper) (cs : Nat) (l : List Node) :
    hel.template_scopes <+: (visitNodes O fuel ⟨hel, cs⟩ l).2.helper.template_scopes :=
  visitNodes_scopes_mono O fuel hN ⟨hel, cs⟩ l

/-- The scope table is append-only across the whole tree walk. -/
lemma visit_scopes_mono (O : ExternalOracle) : ∀ fuel : Nat,
    (∀ (s : VisitState) (n : Node),
      s.helper.template_scopes <+: (visitNode O fuel s n).2.helper.template_scopes) ∧
    (∀ (s : VisitState) (el : ElementNode),
      s.helper.template_scopes <+: (visitElementNode O fuel s el).2.helper.template_scopes) ∧
    (∀ (s : VisitState) (c : ConditionalNodeSequence),
      s.helper.template_scopes <+: (visitConditionalNode O fuel s c).2.helper.template_scopes) := by
  intro fuel
  induction fuel with
  | zero =>
    refine ⟨fun s n => by rw [visitNode], fun s el => by rw [visitElementNode],
      fun s c => by rw [visitConditionalNode]⟩
  | succ m ih =>
    obtain ⟨ihN, ihE, ihC⟩ := ih
    have hE : ∀ (s : VisitState) (el : ElementNode),
        s.helper.template_scopes <+: (visitElementNode O (m+1) s el).2.helper.template_scopes := by
      intro s el
      rw [visitElementNode]
      refine List.IsPrefix.trans ?_ (visitNodes_scopes_mono O m ihN _ _)
      simp only []
      refine List.IsPrefix.trans ?_ (scopeStage_scopes_extend O _ s.current_scope _ _)
      by_cases hic : (recognize_element_kind O el.starting_tag == ElementKind.component) = true
      · rw [if_pos hic, maybe_resolve_component_scopes]
      · rw [if_neg hic]
    refine ⟨?_, hE, ?_⟩
    · intro s n
      cases n with
      | element el =>
        simp only [visitNode]
        exact ihE s el
      | conditionalSeq c =>
        simp only [visitNode]
        exact ihC s c
      | interpolation i =>
        simp only [visitNode, visitInterpolation]
        exact List.prefix_rfl
      | text t =>
        simp only [visitNode]
        exact List.prefix_rfl
      | comment c =>
        simp only [visitNode]
        exact List.prefix_rfl
    · intro s c
      rw [visitConditionalNode]
      refine List.IsPrefix.trans (List.IsPrefix.trans (ihE s c.if_node.node)
        (visitConditionals_scopes_mono O m ihE _ c.else_if_nodes)) ?_
      rcases c.else_node with _ | e
      · exact List.prefix_rfl
      · exact ihE _ e

/-- **C2** (amended): during the tree walk a new `TemplateScope` is appended
to the scope table iff the visited element carries a loop (`v-for`) directive
or a slot (`v-slot`) directive — value-bearing or not; the new scope's parent
is the scope current at entry; the new scope's id is the table length at
entry (ids are monotonically increasing indices into an append-only table and
never removed or reused); and the pre-entry scope is restored on exit. -/
theorem c2_scope_allocation (O : ExternalOracle) (fuel : Nat) (s : VisitState)
    (el : ElementNode) (hwf : s.current_scope < s.helper.template_scopes.length) :
    (s.helper.template_scopes <+:
      (visitElementNode O (fuel+1) s el).2.helper.template_scopes) ∧
    (carriesScope el = true ↔
      (visitElementNode O (fuel+1) s el).1.template_scope =
        s.helper.template_scopes.length) ∧
    (carriesScope el = true →
      ((visitElementNode O (fuel+1) s el).2.helper.template_scopes[
          s.helper.template_scopes.length]?).map TemplateScope.parent =
        some s.current_scope) ∧
    (carriesScope el = false →
      (visitElementNode O (fuel+1) s el).1.template_scope = s.current_scope) ∧
    (visitElementNode O (fuel+1) s el).2.current_scope = s.current_scope := by
  have hpre := (visit_scopes_mono O (fuel+1)).2.1 s el
  have hts : (visitElementNode O (fuel+1) s el).1.template_scope =
      (scopeStage O
        (if recognize_element_kind O el.starting_tag == ElementKind.component then
          maybe_resolve_component O s.current_scope s.helper el.starting_tag.tag_name
        else s.helper)
        s.current_scope el.starting_tag.attributes el.starting_tag.directives).2.1 := by
    simp only [visitElementNode, ElementNode.template_scope_mk]
  have hcs : (visitElementNode O (fuel+1) s el).2.current_scope = s.current_scope := by
    simp only [visitElementNode]
  have hhe : (visitElementNode O (fuel+1) s el).2.helper =
      (visitNodes O fuel
        ⟨(scopeStage O
            (if recognize_element_kind O el.starting_tag == ElementKind.component then
              maybe_resolve_component O s.current_scope s.helper el.starting_tag.tag_name
            else s.helper)
            s.current_scope el.starting_tag.attributes el.starting_tag.directives).2.2,
          (scopeStage O
            (if recognize_element_kind O el.starting_tag == ElementKind.component then
              maybe_resolve_component O s.current_scope s.helper el.starting_tag.tag_name
            else s.helper)
            s.current_scope el.starting_tag.attributes el.starting_tag.directives).2.1⟩
        (optimize_children O el.children (recognize_element_kind O el.starting_tag))).2.helper := by
    simp only [visitElementNode]
  have hs1 : (if recognize_element_kind O el.starting_tag == ElementKind.component then
      maybe_resolve_component O s.current_scope s.helper el.starting_tag.tag_name
    else s.helper).template_scopes = s.helper.template_scopes := by
    split
    · rw [maybe_resolve_component_scopes]
    · rfl
  by_cases hcar : carriesScope el = true
  · obtain ⟨d2, vars, heq⟩ := scopeStage_carries_shape O
      (if recognize_element_kind O el.starting_tag == ElementKind.component then
        maybe_resolve_component O s.current_scope s.helper el.starting_tag.tag_name
      else s.helper)
      s.current_scope el.starting_tag.attributes el.starting_tag.directives hcar
    refine ⟨hpre, ⟨fun _ => ?_, fun _ => hcar⟩, fun _ => ?_, fun hfalse => ?_, hcs⟩
    · rw [hts, heq]
      simp only []
      rw [hs1]
    · -- the new scope's parent is the entry scope
      have hmid : ((scopeStage O
          (if recognize_element_kind O el.starting_tag == ElementKind.component then
            maybe_resolve_component O s.current_scope s.helper el.starting_tag.tag_name
          else s.helper)
          s.current_scope el.starting_tag.attributes el.starting_tag.directives).2.2.template_scopes)[
            s.helper.template_scopes.length]? = some ⟨vars, s.current_scope⟩ := by
        rw [heq]
        simp only []
        rw [← hs1, List.getElem?_concat_length]
      have hmono : (scopeStage O
          (if recognize_element_kind O el.starting_tag == ElementKind.component then
            maybe_resolve_component O s.current_scope s.helper el.starting_tag.tag_name
          else s.helper)
          s.current_scope el.starting_tag.attributes el.starting_tag.directives).2.2.template_scopes <+:
          (visitElementNode O (fuel+1) s el).2.helper.template_scopes := by
        rw [hhe]
        apply visitNodes_scopes_mono_state O fuel (visit_scopes_mono O fuel).1
      obtain ⟨t, ht⟩ := hmono
      rw [← ht, List.getElem?_append_left, hmid]
      · rfl
      · rw [heq]
        simp only []
        rw [← hs1]
        simp
    · rw [hcar] at hfalse
      simp at hfalse
  · have hcar' : carriesScope el = false := by simpa using hcar
    rw [carriesScope] at hcar'
    have hns := scopeStage_not_carries O
      (if recognize_element_kind O el.starting_tag == ElementKind.component then
        maybe_resolve_component O s.current_scope s.helper el.starting_tag.tag_name
      else s.helper)
      s.current_scope el.starting_tag.attributes el.starting_tag.directives hcar'
    refine ⟨hpre, ⟨fun htrue => absurd htrue hcar, fun hlen => ?_⟩, fun htrue => absurd htrue hcar,
      fun _ => ?_, hcs⟩
    · rw [hts, hns] at hlen
      simp only [] at hlen
      omega
    · rw [hts, hns]

/-- **C2** (counterexample): a scope is appended for an element whose only
scoping directive is a `v-slot` *without* a value — the code tests
`v_slot.is_some()`, not "value-bearing", so the claimed "if and only if the
element carries a loop directive or a value-bearing slot directive" fails. -/
theorem c2_valueless_slot_counterexample :
    c2SlotD.v_for = none ∧ c2SlotD.v_slot.map VSlotDirective.value = some none ∧
    (visitElementNode trivialOracle (0+1) c2State c2SlotEl).2.helper.template_scopes.length = 2 := by
  refine ⟨rfl, rfl, ?_⟩
  simp [visitElementNode, scopeStage, transformAttrs, transformDirectives, transformVModels,
    optimize_children, trimWhitespace, discardMask, leadMask, trailMask, midMask, retainByMask,
    foldConditionals, finishSeq, visitNodes, c2State, c2SlotEl, c2SlotD, trivialOracle,
    maybe_resolve_component, recognize_element_kind, searchedComponentName, collectInto,
    carriesD, lookupComponent]

/-- Witness for `c2_scope_allocation` at a concrete loop element. -/
theorem c2_scope_allocation_witness :
    c2State.current_scope < c2State.helper.template_scopes.length ∧
    ((c2State.helper.template_scopes <+:
      (visitElementNode trivialOracle (0+1) c2State c2ForEl).2.helper.template_scopes) ∧
    (carriesScope c2ForEl = true ↔
      (visitElementNode trivialOracle (0+1) c2State c2ForEl).1.template_scope =
        c2State.helper.template_scopes.length) ∧
    (carriesScope c2ForEl = true →
      ((visitElementNode trivialOracle (0+1) c2State c2ForEl).2.helper.template_scopes[
          c2State.helper.template_scopes.length]?).map TemplateScope.parent =
        some c2State.current_scope) ∧
    (carriesScope c2ForEl = false →
      (visitElementNode trivialOracle (0+1) c2State c2ForEl).1.template_scope =
        c2State.current_scope) ∧
    (visitElementNode trivialOracle (0+1) c2State c2ForEl).2.current_scope =
      c2State.current_scope) :=
  ⟨by decide, c2_scope_allocation trivialOracle 0 c2State c2ForEl (by decide)⟩

lemma transformAttr_inv (O : ExternalOracle) (scope : Nat) (ic : Bool)
    (h : PatchHints) (a : AttributeOrBinding) (hi : HintsInv h) :
    HintsInv (transformAttr O scope ic h a).1 := by
  match a with
  | .regularAttribute n v =>
    simpa only [transformAttr] using hi
  | .vOn d =>
    rcases hh : d.handler with _ | handler
    · simp only [transformAttr, hh]
      exact hi
    · simp only [transformAttr, hh]
      exact hi
  | .vBind vb =>
    rcases harg : vb.argument with _ | sOrE
    · simp only [transformAttr, harg]
      intro _
      exact ⟨rfl, rfl, rfl, rfl⟩
    · match sOrE with
      | .expr e =>
        simp only [transformAttr, harg]
        intro _
        exact ⟨rfl, rfl, rfl, rfl⟩
      | .str argument =>
        simp only [transformAttr, harg]
        by_cases hc : (!(O.transform_expr vb.value scope).2 || h.flags.fullProps) = true
        · rw [if_pos hc]
          exact hi
        · rw [if_neg hc]
          have hfp : h.flags.fullProps = false := by
            simp only [Bool.or_eq_true, Bool.not_eq_true'] at hc
            rcases hh : h.flags.fullProps
            · rfl
            · exact absurd (Or.inr hh) hc
          by_cases hk : (argument == "key") = true
          · rw [if_pos hk]
            exact hi
          · rw [if_neg hk]
            by_cases hic : ic = true
            · rw [if_pos hic]
              intro hbad
              simp only [] at hbad
              rw [hfp] at hbad
              exact absurd hbad (by simp)
            · rw [if_neg hic]
              by_cases hcl : (argument == "class") = true
              · rw [if_pos hcl]
                intro hbad
                simp only [] at hbad
                rw [hfp] at hbad
                exact absurd hbad (by simp)
              · rw [if_neg hcl]
                by_cases hst : (argument == "style") = true
                · rw [if_pos hst]
                  intro hbad
                  simp only [] at hbad
                  rw [hfp] at hbad
                  exact absurd hbad (by simp)
                · rw [if_neg hst]
                  intro hbad
                  simp only [] at hbad
                  rw [hfp] at hbad
                  exact absurd hbad (by simp)

lemma transformAttrs_inv (O : ExternalOracle) (scope : Nat) (ic : Bool) :
    ∀ (attrs : List AttributeOrBinding) (h : PatchHints), HintsInv h →
      HintsInv (transformAttrs O scope ic h attrs).1
  | [], h, hi => hi
  | a :: rest, h, hi => by
    rw [transformAttrs]
    exact transformAttrs_inv O scope ic rest _ (transformAttr_inv O scope ic h a hi)

lemma transformVModels_inv (O : ExternalOracle) (scope : Nat)
    (hvm : ∀ (m : VModelDirective) (sc : Nat) (h : PatchHints), HintsInv h →
      HintsInv (O.transform_v_model m sc h).2) :
    ∀ (ms : List VModelDirective) (h : PatchHints), HintsInv h →
      HintsInv (transformVModels O scope h ms).2
  | [], h, hi => hi
  | m :: rest, h, hi => by
    rw [transformVModels]
    exact transformVModels_inv O scope hvm rest _ (hvm m scope h hi)

lemma transformDirectives_inv (O : ExternalOracle) (scope : Nat)
    (hvm : ∀ (m : VModelDirective) (sc : Nat) (h : PatchHints), HintsInv h →
      HintsInv (O.transform_v_model m sc h).2)
    (od : Option VueDirectives) (h : PatchHints) (hi : HintsInv h) :
    HintsInv (transformDirectives O scope h od).2 := by
  rcases od with _ | dirs
  · exact hi
  · simp only [transformDirectives]
    exact transformVModels_inv O scope hvm dirs.v_model h hi

lemma text_flag_inv (h : PatchHints) (hi : HintsInv h) :
    HintsInv { h with flags := { h.flags with text := true } } := by
  intro hbad
  simp only [] at hbad
  exact hi hbad

lemma ite_text_inv (c : Prop) [Decidable c] (h : PatchHints) (hi : HintsInv h) :
    HintsInv (if c then { h with flags := { h.flags with text := true } } else h) := by
  split
  · exact text_flag_inv h hi
  · exact hi

lemma transformAttr_fullProps (O : ExternalOracle) (scope : Nat) (ic : Bool)
    (h : PatchHints) (a : AttributeOrBinding) (hi : HintsInv h)
    (hfp : h.flags.fullProps = true) :
    transformAttr O scope ic h a = (h, transformAttrOnly O scope a) := by
  obtain ⟨hp, hc, hs, hl⟩ := hi hfp
  match a with
  | .regularAttribute n v => rfl
  | .vOn d =>
    rcases hh : d.handler with _ | handler
    · simp only [transformAttr, transformAttrOnly, hh]
    · simp only [transformAttr, transformAttrOnly, hh]
  | .vBind vb =>
    rcases harg : vb.argument with _ | sOrE
    · simp only [transformAttr, transformAttrOnly, harg]
      rcases h with ⟨⟨t, c, st, pr, fp, sf, kf, uf⟩, props⟩
      simp only [] at hp hc hs hl hfp
      subst hp
      subst hc
      subst hs
      subst hl
      subst hfp
      rfl
    · match sOrE with
      | .expr e =>
        simp only [transformAttr, transformAttrOnly, harg]
        rcases h with ⟨⟨t, c, st, pr, fp, sf, kf, uf⟩, props⟩
        simp only [] at hp hc hs hl hfp
        subst hp
        subst hc
        subst hs
        subst hl
        subst hfp
        rfl
      | .str argument =>
        simp only [transformAttr, transformAttrOnly, harg]
        rw [if_pos]
        rw [hfp]
        simp

lemma transformAttrs_fullProps (O : ExternalOracle) (scope : Nat) (ic : Bool) :
    ∀ (attrs : List AttributeOrBinding) (h : PatchHints), HintsInv h →
      h.flags.fullProps = true →
      transformAttrs O scope ic h attrs = (h, attrs.map (transformAttrOnly O scope))
  | [], h, _, _ => rfl
  | a :: rest, h, hi, hfp => by
    rw [transformAttrs, transformAttr_fullProps O scope ic h a hi hfp]
    simp only []
    rw [transformAttrs_fullProps O scope ic rest h hi hfp]
    simp

/-- **C6**: after processing any element (whose incoming hints satisfy the
invariant, e.g. the parser default, and assuming the external two-way-binding
transform preserves it — spec §4.5), `FULL_PROPS` is never simultaneously set
with any of `PROPS`, `CLASS`, `STYLE`, and when set the dynamic prop-name
list is empty; a dynamically-named binding sets `FULL_PROPS`, clears
`PROPS`/`CLASS`/`STYLE` and empties the prop-name list; and once `FULL_PROPS`
is set no later binding contributes further flags or prop names, though every
later binding's value is still run through the expression transformer. -/
theorem c6_full_props_exclusive :
    (∀ (O : ExternalOracle),
      (∀ (m : VModelDirective) (sc : Nat) (h : PatchHints), HintsInv h →
        HintsInv (O.transform_v_model m sc h).2) →
      ∀ (fuel : Nat) (s : VisitState) (el : ElementNode),
        HintsInv el.patch_hints →
        HintsInv (visitElementNode O fuel s el).1.patch_hints) ∧
    (∀ (O : ExternalOracle) (scope : Nat) (ic : Bool) (h : PatchHints)
        (vb : VBindDirective),
      (vb.argument = none ∨ ∃ e, vb.argument = some (.expr e)) →
      transformAttr O scope ic h (.vBind vb) =
        (⟨{ h.flags with props := false, cls := false, style := false, fullProps := true },
            []⟩,
          .vBind { vb with value := (O.transform_expr vb.value scope).1 })) ∧
    (∀ (O : ExternalOracle) (scope : Nat) (ic : Bool) (h : PatchHints)
        (attrs : List AttributeOrBinding),
      HintsInv h → h.flags.fullProps = true →
      transformAttrs O scope ic h attrs = (h, attrs.map (transformAttrOnly O scope))) := by
  refine ⟨?_, ?_, ?_⟩
  · intro O hvm fuel
    match fuel with
    | 0 =>
      intro s el hi
      simpa only [visitElementNode] using hi
    | fuel' + 1 =>
      intro s el hi
      simp only [visitElementNode, ElementNode.patch_hints_mk]
      exact ite_text_inv _ _ (transformDirectives_inv O _ hvm _ _
        (transformAttrs_inv O _ _ _ _ hi))
  · intro O scope ic h vb harg
    rcases harg with harg | ⟨e, harg⟩
    · simp only [transformAttr, harg]
    · simp only [transformAttr, harg]
  · intro O scope ic h attrs hi hfp
    exact transformAttrs_fullProps O scope ic attrs h hi hfp

/-- Witness for `c6_full_props_exclusive` with the trivial oracle and an
element carrying a dynamically-named binding followed by a class binding. -/
theorem c6_full_props_exclusive_witness :
    (∀ (m : VModelDirective) (sc : Nat) (h : PatchHints), HintsInv h →
      HintsInv (trivialOracle.transform_v_model m sc h).2) ∧
    HintsInv c6El.patch_hints ∧
    HintsInv (visitElementNode trivialOracle (0+1) c2State c6El).1.patch_hints ∧
    HintsInv { flags := { fullProps := true }, props := [] } ∧
    transformAttrs trivialOracle 0 false { flags := { fullProps := true }, props := [] }
        c6Attrs =
      ({ flags := { fullProps := true }, props := [] },
        c6Attrs.map (transformAttrOnly trivialOracle 0)) :=
  ⟨fun m sc h hi => hi, by decide,
    c6_full_props_exclusive.1 trivialOracle (fun m sc h hi => hi) (0+1) c2State c6El
      (by decide),
    by decide,
    c6_full_props_exclusive.2.2 trivialOracle 0 false
      { flags := { fullProps := true }, props := [] } c6Attrs (by decide) (by decide)⟩

lemma transformAttr_fragBits (O : ExternalOracle) (sc : Nat) (ic : Bool)
    (h : PatchHints) (a : AttributeOrBinding) :
    fragBits (transformAttr O sc ic h a).1.flags = fragBits h.flags := by
  match a with
  | .regularAttribute n v => rfl
  | .vOn d =>
    rcases hh : d.handler with _ | handler
    · simp only [transformAttr, hh]
    · simp only [transformAttr, hh]
  | .vBind vb =>
    rcases harg : vb.argument with _ | sOrE
    · simp only [transformAttr, harg]
      rfl
    · match sOrE with
      | .expr e =>
        simp only [transformAttr, harg]
        rfl
      | .str argument =>
        simp only [transformAttr, harg]
        by_cases hc : (!(O.transform_expr vb.value sc).2 || h.flags.fullProps) = true
        · rw [if_pos hc]
        · rw [if_neg hc]
          by_cases hk : (argument == "key") = true
          · rw [if_pos hk]
          · rw [if_neg hk]
            by_cases hic : ic = true
            · rw [if_pos hic]
              rfl
            · rw [if_neg hic]
              by_cases hcl : (argument == "class") = true
              · rw [if_pos hcl]
                rfl
              · rw [if_neg hcl]
                by_cases hst : (argument == "style") = true
                · rw [if_pos hst]
                  rfl
                · rw [if_neg hst]
                  rfl

lemma transformAttrs_fragBits (O : ExternalOracle) (sc : Nat) (ic : Bool) :
    ∀ (attrs : List AttributeOrBinding) (h : PatchHints),
      fragBits (transformAttrs O sc ic h attrs).1.flags = fragBits h.flags
  | [], h => rfl
  | a :: rest, h => by
    rw [transformAttrs]
    rw [transformAttrs_fragBits O sc ic rest _, transformAttr_fragBits O sc ic h a]

lemma transformVModels_fragBits (O : ExternalOracle) (sc : Nat)
    (hvmf : ∀ (m : VModelDirective) (sc' : Nat) (h : PatchHints),
      fragBits (O.transform_v_model m sc' h).2.flags = fragBits h.flags) :
    ∀ (ms : List VModelDirective) (h : PatchHints),
      fragBits (transformVModels O sc h ms).2.flags = fragBits h.flags
  | [], h => rfl
  | m :: rest, h => by
    rw [transformVModels]
    rw [transformVModels_fragBits O sc hvmf rest _, hvmf m sc h]

lemma transformDirectives_fragBits (O : ExternalOracle) (sc : Nat)
    (hvmf : ∀ (m : VModelDirective) (sc' : Nat) (h : PatchHints),
      fragBits (O.transform_v_model m sc' h).2.flags = fragBits h.flags)
    (od : Option VueDirectives) (h : PatchHints) :
    fragBits (transformDirectives O sc h od).2.flags = fragBits h.flags := by
  rcases od with _ | dirs
  · rfl
  · simp only [transformDirectives]
    exact transformVModels_fragBits O sc hvmf dirs.v_model h

lemma ite_text_fragBits (c : Prop) [Decidable c] (h : PatchHints) :
    fragBits (if c then { h with flags := { h.flags with text := true } } else h).flags =
      fragBits h.flags := by
  split
  · rfl
  · rfl

/-- `scopeStage` rewrites a present `v-for` exactly as the source: collect,
transform the iterable at the fresh scope, and or-in the fragment flag. -/
lemma scopeStage_vfor (O : ExternalOracle) (h : BindingsHelper) (ps : Nat)
    (attrs : List AttributeOrBinding) (d : VueDirectives) (vf : VForDirective)
    (hvf : d.v_for = some vf) :
    (scopeStage O h ps attrs (some d)).1 =
      some { d with v_for := some { vf with
        iterable := (O.transform_expr vf.iterable h.template_scopes.length).1,
        patch_flags :=
          if !(O.transform_expr vf.iterable h.template_scopes.length).2 then
            { vf.patch_flags with stableFragment := true }
          else if attrs.any fun a => check_attribute_name a "key" then
            { vf.patch_flags with keyedFragment := true }
          else
            { vf.patch_flags with unkeyedFragment := true } } } := by
  simp only [scopeStage, hvf, Option.isSome_some, Bool.true_or, if_pos]

lemma scopeStage_vfor_none (O : ExternalOracle) (h : BindingsHelper) (ps : Nat)
    (attrs : List AttributeOrBinding) (od : Option VueDirectives)
    (hnl : (od.map VueDirectives.v_for).getD none = none) :
    ((scopeStage O h ps attrs od).1.map VueDirectives.v_for).getD none = none := by
  rcases od with _ | d
  · rfl
  · simp only [Option.map_some', Option.getD_some] at hnl
    simp only [scopeStage, hnl]
    rcases hvs : d.v_slot with _ | vs
    · simp [hnl]
    · simp [hnl]

lemma transformDirectives_vfor (O : ExternalOracle) (sc : Nat) (h : PatchHints)
    (od : Option VueDirectives) :
    ((transformDirectives O sc h od).1.map VueDirectives.v_for).getD none =
      (od.map VueDirectives.v_for).getD none := by
  rcases od with _ | dirs
  · rfl
  · simp only [transformDirectives]
    rfl

/-- **C7**: for every element carrying a loop directive (with the parser
default of no fragment bits on the incoming directive), exactly one of the
three fragment flags is set on the loop directive after the visit:
`STABLE_FRAGMENT` iff the iterable's transform reports no reactive binding
touched, otherwise `KEYED_FRAGMENT` iff a literal `key` attribute is present,
else `UNKEYED_FRAGMENT`.  For an element without a loop directive no loop
directive (and hence no loop fragment flag) appears, and the element's own
fragment hint bits are unchanged (assuming the external two-way-binding
transform preserves them). -/
theorem c7_fragment_flags :
    (∀ (O : ExternalOracle) (fuel : Nat) (s : VisitState) (el : ElementNode)
        (d : VueDirectives) (vf : VForDirective),
      el.starting_tag.directives = some d → d.v_for = some vf →
      vf.patch_flags.stableFragment = false →
      vf.patch_flags.keyedFragment = false →
      vf.patch_flags.unkeyedFragment = false →
      ∃ (d' : VueDirectives) (vf' : VForDirective),
        (visitElementNode O (fuel+1) s el).1.starting_tag.directives = some d' ∧
        d'.v_for = some vf' ∧
        vf'.patch_flags.stableFragment =
          !(O.transform_expr vf.iterable s.helper.template_scopes.length).2 ∧
        vf'.patch_flags.keyedFragment =
          ((O.transform_expr vf.iterable s.helper.template_scopes.length).2 &&
            el.starting_tag.attributes.any fun a => check_attribute_name a "key") ∧
        vf'.patch_flags.unkeyedFragment =
          ((O.transform_expr vf.iterable s.helper.template_scopes.length).2 &&
            !(el.starting_tag.attributes.any fun a => check_attribute_name a "key")) ∧
        vf'.patch_flags.stableFragment.toNat + vf'.patch_flags.keyedFragment.toNat +
          vf'.patch_flags.unkeyedFragment.toNat = 1) ∧
    (∀ (O : ExternalOracle),
      (∀ (m : VModelDirective) (sc' : Nat) (h : PatchHints),
        fragBits (O.transform_v_model m sc' h).2.flags = fragBits h.flags) →
      ∀ (fuel : Nat) (s : VisitState) (el : ElementNode),
      (el.starting_tag.directives.map VueDirectives.v_for).getD none = none →
      ((visitElementNode O (fuel+1) s el).1.starting_tag.directives.map
          VueDirectives.v_for).getD none = none ∧
        fragBits (visitElementNode O (fuel+1) s el).1.patch_hints.flags =
          fragBits el.patch_hints.flags) := by
  constructor
  · intro O fuel s el d vf hd hvf hs0 hk0 hu0
    have hs1 : (if recognize_element_kind O el.starting_tag == ElementKind.component then
        maybe_resolve_component O s.current_scope s.helper el.starting_tag.tag_name
      else s.helper).template_scopes = s.helper.template_scopes := by
      split
      · rw [maybe_resolve_component_scopes]
      · rfl
    simp only [visitElementNode, ElementNode.starting_tag_mk]
    rw [hd]
    rw [scopeStage_vfor O _ s.current_scope _ d vf hvf]
    rw [hs1]
    simp only [transformDirectives]
    by_cases hdy : (O.transform_expr vf.iterable s.helper.template_scopes.length).2 = true
    · by_cases hkey : (el.starting_tag.attributes.any fun a =>
          check_attribute_name a "key") = true
      · refine ⟨_, _, rfl, rfl, ?_, ?_, ?_, ?_⟩ <;>
          simp [hdy, hkey, hs0, hk0, hu0]
      · refine ⟨_, _, rfl, rfl, ?_, ?_, ?_, ?_⟩ <;>
          simp [hdy, hkey, hs0, hk0, hu0]
    · refine ⟨_, _, rfl, rfl, ?_, ?_, ?_, ?_⟩ <;>
        simp [hdy, hs0, hk0, hu0]
  · intro O hvmf fuel s el hnl
    constructor
    · simp only [visitElementNode, ElementNode.starting_tag_mk]
      rw [transformDirectives_vfor]
      exact scopeStage_vfor_none O _ s.current_scope _ _ hnl
    · simp only [visitElementNode, ElementNode.patch_hints_mk]
      rw [ite_text_fragBits, transformDirectives_fragBits O _ hvmf,
        transformAttrs_fragBits]

/-- Witness for `c7_fragment_flags` on a loop over the literal `3` under the
trivial oracle (nothing reactive: STABLE_FRAGMENT). -/
theorem c7_fragment_flags_witness :
    c2ForEl.starting_tag.directives = some c2ForD ∧ c2ForD.v_for = some c7VF ∧
    ∃ (d' : VueDirectives) (vf' : VForDirective),
      (visitElementNode trivialOracle (0+1) c2State c2ForEl).1.starting_tag.directives =
        some d' ∧
      d'.v_for = some vf' ∧
      vf'.patch_flags.stableFragment =
        !(trivialOracle.transform_expr c7VF.iterable
          c2State.helper.template_scopes.length).2 ∧
      vf'.patch_flags.keyedFragment =
        ((trivialOracle.transform_expr c7VF.iterable
            c2State.helper.template_scopes.length).2 &&
          c2ForEl.starting_tag.attributes.any fun a => check_attribute_name a "key") ∧
      vf'.patch_flags.unkeyedFragment =
        ((trivialOracle.transform_expr c7VF.iterable
            c2State.helper.template_scopes.length).2 &&
          !(c2ForEl.starting_tag.attributes.any fun a => check_attribute_name a "key")) ∧
      vf'.patch_flags.stableFragment.toNat + vf'.patch_flags.keyedFragment.toNat +
        vf'.patch_flags.unkeyedFragment.toNat = 1 :=
  ⟨rfl, rfl, c7_fragment_flags.1 trivialOracle 0 c2State c2ForEl c2ForD c7VF
    rfl rfl rfl rfl rfl⟩

end Fervid
